import Mathlib

/-!
seattle-commute: the routing decision pipeline.

A shallow embedding of the transit route aggregation (`transit/transit.go`),
the location provider chain (`location/location.go`) and the walking-distance
check (`distance/distance.go`), followed by theorems about them.

Conventions of the embedding:
* `time.Duration` is a signed number of nanoseconds (`Int`).
* `time.Time` is an instant (nanoseconds since the Unix epoch) together with
  the UTC offset, in seconds, of the location the value is rendered in.
* The wall clock and the directions provider are external: an `Env` fixes what
  the k-th reading of `time.Now()` and the k-th `Directions` call produce, and a
  `World` records how many readings were taken and which requests were sent.
* Go `error` values are their message strings.
-/

namespace SeattleCommute

deriving instance DecidableEq for Except

/-! ## Time -/

/-- Go `time.Duration`: nanoseconds. -/
abbrev Duration := Int

/-- Go `time.Second`. -/
def Second : Duration := 1000000000

/-- Go `time.Minute`. -/
def Minute : Duration := 60 * Second

/-- Go `time.Time`: the instant in nanoseconds since the Unix epoch, and the
offset east of UTC (seconds) of the location used when the value is formatted. -/
structure Time where
  nanos : Int
  offset : Int
deriving DecidableEq, Repr

namespace Time

/-- Go zero `time.Time` (January 1, year 1, 00:00 UTC). -/
def zero : Time := { nanos := -62135596800 * 1000000000, offset := 0 }

/-- Go `Time.Before`: the instants are compared, the location plays no role. -/
def Before (t u : Time) : Bool := decide (t.nanos < u.nanos)

/-- Go `Time.Add`. -/
def Add (t : Time) (d : Duration) : Time := { t with nanos := t.nanos + d }

/-- Go `Time.Sub`: the difference of the instants, or the smallest or largest
`time.Duration` (an int64) when the difference does not fit. -/
def Sub (t u : Time) : Duration :=
  let d := t.nanos - u.nanos
  if d < -9223372036854775808 then -9223372036854775808
  else if 9223372036854775807 < d then 9223372036854775807
  else d

/-- Go `Time.Unix`: whole seconds since the epoch (rounded down). -/
def Unix (t : Time) : Int := t.nanos / 1000000000

/-- Seconds on the local wall clock of the value's location. -/
def localSeconds (t : Time) : Int := t.Unix + t.offset

/-- Go `Time.Hour`: hour of the day on the local wall clock, 0..23. -/
def Hour (t : Time) : Nat := (t.localSeconds / 3600 % 24).toNat

/-- Go `Time.Minute`: minute of the hour on the local wall clock, 0..59. -/
def MinuteOfHour (t : Time) : Nat := (t.localSeconds / 60 % 60).toNat

/-- The instant truncated to the minute, as whole minutes since the epoch (Go
`t.Truncate(time.Minute)`). Two values of one location agree on it exactly when
they show the same date, hour and minute. -/
def truncMinute (t : Time) : Int := t.nanos / (60 * 1000000000)

end Time

/-- Two decimal digits, zero padded (the layout elements `15` and `04`). -/
def pad2 (n : Nat) : List Char := [Char.ofNat (48 + n / 10), Char.ofNat (48 + n % 10)]

/-- Go `t.Format("15:04")`: 24-hour clock hour, a colon, the minute. -/
def format1504 (t : Time) : String := String.mk (pad2 t.Hour ++ [':'] ++ pad2 t.MinuteOfHour)

/-! ## Provider types (the fields of `googlemaps.github.io/maps` that are read) -/

/-- Fields of `maps.TransitDetails` read by the program. -/
structure MapsTransitDetails where
  DepartureTime : Time
  ArrivalTime : Time
  LineName : String
  LineShortName : String
  LineVehicleName : String
deriving DecidableEq, Repr

/-- Fields of `maps.Step` read by the program. -/
structure MapsStep where
  HTMLInstructions : String
  Duration : Duration
  TravelMode : String
  TransitDetails : Option MapsTransitDetails
deriving DecidableEq, Repr

/-- Fields of `maps.Leg` read by the program. -/
structure MapsLeg where
  Steps : List MapsStep
  DistanceHumanReadable : String
  Duration : Duration
  DepartureTime : Time
  ArrivalTime : Time
deriving DecidableEq, Repr

/-- Fields of `maps.Route` read by the program. -/
structure MapsRoute where
  Summary : String
  Legs : List MapsLeg
deriving DecidableEq, Repr

/-- Fields of `maps.DirectionsRequest` set by the program. An unset
`DepartureTime` is the empty string, an unset `Alternatives` is `false`. -/
structure DirectionsRequest where
  Origin : String
  Destination : String
  Mode : String
  DepartureTime : String
  Alternatives : Bool
  Units : String
deriving DecidableEq, Repr

/-! ## transit.go: data model -/

/-- `transit.Step`. -/
structure Step where
  Instructions : String
  Duration : Duration
  Mode : String
  LineInfo : String
  DepartTime : Time
  ArrivalTime : Time
deriving DecidableEq, Repr

/-- `transit.Route`. -/
structure Route where
  Summary : String
  Duration : Duration
  DepartureTime : Time
  ArrivalTime : Time
  Steps : List Step
  Distance : String
deriving DecidableEq, Repr

/-! ## transit.go: cleanHTML -/

/-- Go `strings.ReplaceAll` for a non-empty `old`: scanning left to right, each
non-overlapping occurrence of `old` is replaced by `new`. `skip` counts the
characters of a matched occurrence that are still to be stepped over. -/
def replaceAllAux (old new : List Char) : Nat → List Char → List Char
  | _, [] => []
  | skip + 1, _ :: cs => replaceAllAux old new skip cs
  | 0, c :: cs =>
    if old.isPrefixOf (c :: cs) then new ++ replaceAllAux old new (old.length - 1) cs
    else c :: replaceAllAux old new 0 cs

/-- Go `strings.ReplaceAll(s, old, new)` (used with non-empty `old` only). -/
def replaceAll (s old new : String) : String :=
  String.mk (replaceAllAux old.data new.data 0 s.data)

/-- `cleanHTML` of transit.go. -/
def cleanHTML (html : String) : String :=
  let html := replaceAll html "<b>" ""
  let html := replaceAll html "</b>" ""
  let html := replaceAll html "<div>" ""
  let html := replaceAll html "</div>" ""
  let html := replaceAll html "<div style=\"font-size:0.9em\">" " - "
  html

/-! ## transit.go: building a Route from a provider candidate -/

/-- The body of the `for _, step := range leg.Steps` loop. -/
def mkStep (step : MapsStep) : Step :=
  let s : Step :=
    { Instructions := cleanHTML step.HTMLInstructions
      Duration := step.Duration
      Mode := step.TravelMode
      LineInfo := ""
      DepartTime := Time.zero
      ArrivalTime := Time.zero }
  match step.TransitDetails with
  | none => s
  | some td =>
    let s := { s with DepartTime := td.DepartureTime, ArrivalTime := td.ArrivalTime }
    if td.LineShortName != "" then
      { s with LineInfo := td.LineVehicleName ++ " " ++ td.LineShortName }
    else
      { s with LineInfo := td.LineName }

/-- The `Route` built from a candidate and its first leg. -/
def mkRoute (route : MapsRoute) (leg : MapsLeg) : Route :=
  { Summary := route.Summary
    Duration := leg.Duration
    DepartureTime := leg.DepartureTime
    ArrivalTime := leg.ArrivalTime
    Steps := leg.Steps.map mkStep
    Distance := leg.DistanceHumanReadable }

/-! ## sort.Slice -/

/-- One pass of the inner loop of Go's `insertionSortLessFunc`: `x` moves left
past every element it is `less` than. The sorted prefix is held reversed, its
last element first. -/
def insertLeft {α : Type} (less : α → α → Bool) (x : α) : List α → List α
  | [] => [x]
  | p :: ps => if less x p then p :: insertLeft less x ps else x :: p :: ps

/-- Go `sort.Slice(xs, less)`, by the insertion sort the library uses on short
slices. The library does not promise an order among elements that compare
equal; the theorems below use only that the result is a permutation of the
input and ordered by `less`. -/
def sortSlice {α : Type} (less : α → α → Bool) (xs : List α) : List α :=
  (xs.foldl (fun sortedRev x => insertLeft less x sortedRev) []).reverse

/-- The comparison passed to `sort.Slice` in transit.go. -/
def lessByDeparture (a b : Route) : Bool := a.DepartureTime.Before b.DepartureTime

/-! ## The outside world -/

/-- What the environment does: the k-th reading of `time.Now()` and the
outcome of the k-th `Directions` call, given the request it receives. -/
structure Env where
  clock : Nat → Time
  directions : Nat → DirectionsRequest → Except String (List MapsRoute)

/-- What has happened so far: how many clock readings were taken and which
directions requests were sent (oldest first). -/
structure World where
  ticks : Nat
  sent : List DirectionsRequest
deriving DecidableEq, Repr

/-- Go `time.Now()`. -/
def timeNow (env : Env) (w : World) : Time × World :=
  (env.clock w.ticks, { w with ticks := w.ticks + 1 })

/-- Go `client.Directions(ctx, req)`. -/
def Directions (env : Env) (req : DirectionsRequest) (w : World) :
    Except String (List MapsRoute) × World :=
  (env.directions w.sent.length req, { w with sent := w.sent ++ [req] })

/-! ## transit.go: removeDuplicateRoutes -/

/-- The key `fmt.Sprintf("%s_%s_%s", Summary, dep.Format("15:04"), arr.Format("15:04"))`. -/
def routeKey (route : Route) : String :=
  route.Summary ++ "_" ++ format1504 route.DepartureTime ++ "_" ++ format1504 route.ArrivalTime

/-- The loop of `removeDuplicateRoutes`; `seen` holds the keys set to `true`. -/
def removeDuplicateLoop : List Route → List String → List Route → List Route
  | [], _, unique => unique
  | route :: rest, seen, unique =>
    let key := routeKey route
    if !(seen.contains key) then removeDuplicateLoop rest (seen ++ [key]) (unique ++ [route])
    else removeDuplicateLoop rest seen unique

/-- `removeDuplicateRoutes` of transit.go. -/
def removeDuplicateRoutes (routes : List Route) : List Route :=
  removeDuplicateLoop routes [] []

/-! ## transit.go: getFallbackRoutes -/

/-- The request of fallback attempt `i`, built from the clock reading `t`. -/
def fallbackRequest (origin destination : String) (t : Time) (i : Nat) : DirectionsRequest :=
  let departTime := t.Add (((i * 20 : Nat) : Int) * Minute)
  { Origin := origin
    Destination := destination
    Mode := "transit"
    DepartureTime := toString departTime.Unix
    Alternatives := false
    Units := "imperial" }

/-- The loop `for i := 0; i < 3; i++` of `getFallbackRoutes`, with `n` iterations
left to run starting at `i`. -/
def fallbackLoop (env : Env) (origin destination : String) :
    Nat → Nat → List Route → World → List Route × World
  | 0, _, allRoutes, w => (allRoutes, w)
  | n + 1, i, allRoutes, w =>
    let (t, w1) := timeNow env w
    let req := fallbackRequest origin destination t i
    let (res, w2) := Directions env req w1
    match res with
    | .error _ => fallbackLoop env origin destination n (i + 1) allRoutes w2
    | .ok resp =>
      match resp with
      | [] => fallbackLoop env origin destination n (i + 1) allRoutes w2
      | route :: _ =>
        match route.Legs with
        | [] => fallbackLoop env origin destination n (i + 1) allRoutes w2
        | leg :: _ =>
          fallbackLoop env origin destination n (i + 1) (allRoutes ++ [mkRoute route leg]) w2

/-- `getFallbackRoutes` of transit.go. -/
def getFallbackRoutes (env : Env) (origin destination : String) (_hours : Int) (w : World) :
    Except String (List Route) × World :=
  let (allRoutes, w1) := fallbackLoop env origin destination 3 0 [] w
  let uniqueRoutes := removeDuplicateRoutes allRoutes
  (.ok (sortSlice lessByDeparture uniqueRoutes), w1)

/-! ## transit.go: GetNextRoutes -/

/-- The request of the primary query. -/
def primaryRequest (origin destination : String) : DirectionsRequest :=
  { Origin := origin
    Destination := destination
    Mode := "transit"
    DepartureTime := "now"
    Alternatives := true
    Units := "imperial" }

/-- The loop `for _, route := range resp` of `GetNextRoutes`. The clock is read
once for every candidate that has a leg. -/
def nextRoutesLoop (env : Env) : List MapsRoute → List Route → World → List Route × World
  | [], routes, w => (routes, w)
  | route :: rest, routes, w =>
    match route.Legs with
    | [] => nextRoutesLoop env rest routes w
    | leg :: _ =>
      let (t, w1) := timeNow env w
      if leg.DepartureTime.Before (t.Add (-5 * Minute)) then
        nextRoutesLoop env rest routes w1
      else
        nextRoutesLoop env rest (routes ++ [mkRoute route leg]) w1

/-- `GetNextRoutes` of transit.go. -/
def GetNextRoutes (env : Env) (origin destination : String) (hours : Int) (w : World) :
    Except String (List Route) × World :=
  let (res, w1) := Directions env (primaryRequest origin destination) w
  match res with
  | .error err => (.error ("failed to get directions: " ++ err), w1)
  | .ok resp =>
    if resp.length == 0 then (.error "no routes found", w1)
    else
      let (routes, w2) := nextRoutesLoop env resp [] w1
      if routes.length == 0 then getFallbackRoutes env origin destination hours w2
      else (.ok (sortSlice lessByDeparture routes), w2)

/-! ## location.go -/

/-- A location provider: invoking it yields a location or an error. -/
abbrev LocationService := Unit → Except String String

/-- `tryDefault` of location.go. -/
def tryDefault : LocationService := fun _ => .ok "47.6062,-122.3321"

/-- The loop `for _, service := range services` of `tryLocationServices`,
followed by the final `return`. The second component counts the providers
invoked, starting from `invoked`. -/
def tryServicesLoop : List LocationService → Nat → Except String String × Nat
  | [], invoked => (.error "all location services failed", invoked)
  | service :: rest, invoked =>
    match service () with
    | .ok location => (.ok location, invoked + 1)
    | .error _ => tryServicesLoop rest (invoked + 1)

/-- The slice `services` of `tryLocationServices`; the outcomes of the three
external providers are parameters. -/
def locationServices (tryPreciseLocation tryIPAPI tryIPInfo : LocationService) :
    List LocationService :=
  [tryPreciseLocation, tryIPAPI, tryIPInfo, tryDefault]

/-- `tryLocationServices` of location.go. -/
def tryLocationServices (tryPreciseLocation tryIPAPI tryIPInfo : LocationService) :
    Except String String × Nat :=
  tryServicesLoop (locationServices tryPreciseLocation tryIPAPI tryIPInfo) 0

/-- What `GetCurrentLocation` does with the outcome of `tryLocationServices`. -/
def wrapLocationOutcome (res : Except String String) : Except String String :=
  match res with
  | .error err =>
    .error ("automatic location detection failed: " ++ err ++
      "\n\n💡 Try: \x27commute --from \"your current address\"\x27 or set a default location with \x27commute config set-current \"address\"\x27")
  | .ok location => .ok location

/-- `GetCurrentLocation` of location.go. -/
def GetCurrentLocation (tryPreciseLocation tryIPAPI tryIPInfo : LocationService) :
    Except String String :=
  wrapLocationOutcome (tryLocationServices tryPreciseLocation tryIPAPI tryIPInfo).1

/-! ## distance.go -/

/-- The request of `GetWalkingDistance`. -/
def walkingRequest (origin destination : String) : DirectionsRequest :=
  { Origin := origin
    Destination := destination
    Mode := "walking"
    DepartureTime := ""
    Alternatives := false
    Units := "imperial" }

/-- `GetWalkingDistance` of distance.go; the results are Go's
`(time.Duration, string, error)`, with `none` for a nil error. -/
def GetWalkingDistance (env : Env) (origin destination : String) (w : World) :
    (Duration × String × Option String) × World :=
  let (res, w1) := Directions env (walkingRequest origin destination) w
  match res with
  | .error err => ((0, "", some ("failed to get walking directions: " ++ err)), w1)
  | .ok resp =>
    match resp with
    | [] => ((0, "", some "no walking route found"), w1)
    | route :: _ =>
      match route.Legs with
      | [] => ((0, "", some "no walking route found"), w1)
      | leg :: _ => ((leg.Duration, leg.DistanceHumanReadable, none), w1)

/-- `IsWithinWalkingDistance` of distance.go; the results are Go's
`(bool, time.Duration, string, error)`. -/
def IsWithinWalkingDistance (env : Env) (origin destination : String) (w : World) :
    (Bool × Duration × String × Option String) × World :=
  let ((walkTime, walkDistance, err), w1) := GetWalkingDistance env origin destination w
  match err with
  | some e => ((false, 0, "", some e), w1)
  | none =>
    let isWalkable := decide (walkTime ≤ 15 * Minute)
    ((isWalkable, walkTime, walkDistance, none), w1)

/-! ## cmd/root.go -/

/-- `NewDistanceChecker` of distance.go. `newClient` stands for the library's
`maps.NewClient(maps.WithAPIKey(apiKey))`: the error it reports for a key, if
any. -/
def NewDistanceChecker (newClient : String → Option String) (apiKey : String) : Option String :=
  match newClient apiKey with
  | some err => some ("failed to create Google Maps client: " ++ err)
  | none => none

/-- `NewTransitService` of transit.go, with `newClient` as in `NewDistanceChecker`. -/
def NewTransitService (newClient : String → Option String) (apiKey : String) : Option String :=
  match newClient apiKey with
  | some err => some ("failed to create Google Maps client: " ++ err)
  | none => none

/-- `formatDuration` of root.go. `int(d.Minutes())` is taken as the number of
whole minutes of `d` (here `d` is at least one minute); the float64 value
`d.Minutes()` has that integer part for every duration below 2^18 minutes
(about 182 days), beyond which its rounding is not modelled. -/
def formatDuration (d : Duration) : String :=
  if d < Minute then "now"
  else
    let minutes := d / Minute
    if minutes < 60 then toString minutes ++ "m"
    else
      let hours := minutes / 60
      let remainingMinutes := minutes % 60
      if remainingMinutes == 0 then toString hours ++ "h"
      else toString hours ++ "h" ++ toString remainingMinutes ++ "m"

/-- Go `t.Format("3:04 PM")`: 12-hour clock hour without padding, the minute,
and AM or PM. -/
def format304PM (t : Time) : String :=
  let h12 := if t.Hour % 12 == 0 then 12 else t.Hour % 12
  toString h12 ++ ":" ++ String.mk (pad2 t.MinuteOfHour) ++ " " ++
    (if 12 ≤ t.Hour then "PM" else "AM")

/-- The status chosen in the loop of `printRoutes` for a time until departure;
`none` stands for `continue`. -/
def routeStatus (timeUntil : Duration) : Option String :=
  if timeUntil < 0 then none
  else if timeUntil < 5 * Minute then some " 🏃‍♂️ LEAVING SOON"
  else if timeUntil < 15 * Minute then some " ⚡ GOOD TIMING"
  else some ""

/-- What the loop body of `printRoutes` prints for the route at index `i` once
`timeUntil` and `status` are known. -/
def printRouteLines (i : Nat) (route : Route) (timeUntil : Duration) (status : String) :
    List String :=
  let head :=
    ["\n" ++ toString (i + 1) ++ ". Depart: " ++ format304PM route.DepartureTime ++
        " (" ++ formatDuration timeUntil ++ ")" ++ status ++ "\n",
      "   Arrive: " ++ format304PM route.ArrivalTime ++
        " (Travel: " ++ formatDuration route.Duration ++ ")\n",
      "   Distance: " ++ route.Distance ++ "\n"]
  let transitSteps := route.Steps.filter (fun step => step.Mode == "TRANSIT")
  if 0 < transitSteps.length then
    let lineInfos := (transitSteps.filter (fun step => step.LineInfo != "")).map
      (fun step => step.LineInfo)
    head ++ ["   🚌 ", " → ".intercalate lineInfos ++ "\n"]
  else head

/-- The loop `for i, route := range routes` of `printRoutes`, from index `i`. -/
def printRoutesLoop (now : Time) : Nat → List Route → List String
  | _, [] => []
  | i, route :: rest =>
    let timeUntil := route.DepartureTime.Sub now
    match routeStatus timeUntil with
    | none => printRoutesLoop now (i + 1) rest
    | some status => printRouteLines i route timeUntil status ++ printRoutesLoop now (i + 1) rest

/-- `printRoutes` of root.go: the text written to standard output. -/
def printRoutes (env : Env) (routes : List Route) (w : World) : List String × World :=
  let (now, w1) := timeNow env w
  (printRoutesLoop now 0 routes ++
    ["\n📱 Tip: Add this tool to your PATH for quick access anywhere!\n"], w1)

/-- `min` of root.go. -/
def min (a b : Nat) : Nat := if a < b then a else b

/-- How a run of the command ends: the text written to standard output, the
exit status when `os.Exit` was called, and the world afterwards. -/
structure RunResult where
  out : List String
  exitCode : Option Nat
  world : World
deriving DecidableEq, Repr

/-- Go `strings.Contains`. -/
def stringsContains (s sub : String) : Bool := decide (sub.data <:+: s.data)

/-- What `rootCmd.Run` does with the outcome of `GetNextRoutes` (from the error
check after the call to the end of the function). -/
def presentRoutes (env : Env) (destination destinationType : String)
    (res : Except String (List Route) × World) : RunResult :=
  match res with
  | (.error err, w) =>
    if stringsContains err "no routes found" then
      { out := ["\n❌ No transit routes found. This could mean:\n",
                "   • No transit service at this time (most Seattle buses run 5 AM - 2 AM)\n",
                "   • Your location is too far from Seattle transit\n",
                "   • Try running \x27commute init\x27 to update your addresses\n"]
        exitCode := some 1, world := w }
    else if stringsContains err "ZERO_RESULTS" then
      { out := ["\n❌ No routes found between these locations.\n",
                "   • Check that both addresses are in the Seattle area\n",
                "   • Transit might not be available at this time\n"]
        exitCode := some 1, world := w }
    else
      { out := ["\n❌ Transit service error: " ++ err ++ "\n"], exitCode := some 1, world := w }
  | (.ok routes, w) =>
    if routes.length == 0 then
      { out := ["✅\n", "❌ No transit routes found\n"], exitCode := some 1, world := w }
    else
      let (printed, w1) := printRoutes env (routes.take (min 5 routes.length)) w
      { out := ["✅\n",
                "\n🏠 Routes to " ++ destination ++ " (" ++ destinationType ++ ")\n",
                "=" ++ String.mk (List.replicate (destination.utf8ByteSize + 12) '=') ++ "\n"] ++
              printed
        exitCode := none, world := w1 }

/-- The transit part of `rootCmd.Run`: from "Finding transit routes" on. -/
def findTransitRoutes (env : Env) (newClient : String → Option String)
    (apiKey currentLoc destination destinationType : String) (w : World) : RunResult :=
  match NewTransitService newClient apiKey with
  | some err =>
    { out := ["🚌 Finding transit routes... ", "\nError: " ++ err ++ "\n"]
      exitCode := some 1, world := w }
  | none =>
    let r := presentRoutes env destination destinationType
      (GetNextRoutes env currentLoc destination 2 w)
    { r with out := "🚌 Finding transit routes... " :: r.out }

/-- `rootCmd.Run` of root.go from "Check if already within walking distance"
on, once the current location and the destination are determined. -/
def runFromDistanceCheck (env : Env) (newClient : String → Option String)
    (apiKey currentLoc destination destinationType : String) (w : World) : RunResult :=
  match NewDistanceChecker newClient apiKey with
  | some err =>
    { out := ["📏 Checking distance... ", "\nError: " ++ err ++ "\n"]
      exitCode := some 1, world := w }
  | none =>
    let ((isWalkable, walkTime, walkDistance, err), w1) :=
      IsWithinWalkingDistance env currentLoc destination w
    if err.isNone && isWalkable then
      if walkTime ≤ 2 * Minute then
        { out := ["📏 Checking distance... ", "✅\n",
                  "\n🏠 You\x27re already at " ++ destinationType ++ "!\n",
                  "📍 Current location matches your " ++ destinationType ++ " address\n"]
          exitCode := none, world := w1 }
      else
        { out := ["📏 Checking distance... ", "✅\n",
                  "\n🚶‍♂️ You\x27re already close to " ++ destinationType ++ "!\n",
                  "Walking time: " ++ formatDuration walkTime ++ " (" ++ walkDistance ++ ")\n",
                  "💡 No transit needed - just walk!\n"]
          exitCode := none, world := w1 }
    else
      let r := findTransitRoutes env newClient apiKey currentLoc destination destinationType w1
      { r with out := ["📏 Checking distance... ", "✅\n"] ++ r.out }

/-! ## Specification-side definitions -/

/-- A list of routes is in ascending order of departure time. -/
def AscendingByDeparture (routes : List Route) : Prop :=
  routes.Pairwise (fun a b => a.DepartureTime.nanos ≤ b.DepartureTime.nanos)

/-- The itineraries of a provider response that the stale rule keeps at call
time `now`: one for each candidate that has a leg and whose first leg departs
not more than 5 minutes before `now`. -/
def freshRoutes (now : Time) (resp : List MapsRoute) : List Route :=
  resp.filterMap (fun c =>
    match c.Legs with
    | [] => none
    | leg :: _ =>
      if now.nanos - 5 * Minute ≤ leg.DepartureTime.nanos then some (mkRoute c leg) else none)

/-- What one fallback attempt contributes, given the outcome of its query: the
itinerary of the first candidate's first leg, or nothing when the query failed,
returned no candidate, or returned a first candidate without a leg. -/
def fallbackContribution (res : Except String (List MapsRoute)) : Option Route :=
  match res with
  | .error _ => none
  | .ok [] => none
  | .ok (route :: _) =>
    match route.Legs with
    | [] => none
    | leg :: _ => some (mkRoute route leg)

/-- The first itinerary, in encounter order, of each key not in `seen`. -/
def firstByKey : List String → List Route → List Route
  | _, [] => []
  | seen, r :: rest =>
    if routeKey r ∈ seen then firstByKey seen rest
    else r :: firstByKey (seen ++ [routeKey r]) rest

/-- One left-to-right pass over a text with a table of rules `(fragment,
replacement)`: where a fragment of the table occurs, its replacement is written
and the pass continues after the occurrence; otherwise the character is copied.
`fuel` bounds the number of steps; the length of the text is enough when no
fragment is empty. -/
def rewritePass (rules : List (List Char × List Char)) : Nat → List Char → List Char
  | 0, _ => []
  | _ + 1, [] => []
  | fuel + 1, c :: cs =>
    match rules.find? (fun r => r.1.isPrefixOf (c :: cs)) with
    | some r => r.2 ++ rewritePass rules fuel ((c :: cs).drop r.1.length)
    | none => c :: rewritePass rules fuel cs

/-- The text with every occurrence of `old` replaced by `new`. -/
def replaceEvery (old new : String) (s : List Char) : List Char :=
  rewritePass [(old.data, new.data)] s.length s

/-- The sanitizing rules in the order the specification lists them: four
fragments that are deleted and one that becomes `" - "`. -/
def sanitizeRules : List (List Char × List Char) :=
  [("<b>".data, []), ("</b>".data, []), ("<div>".data, []), ("</div>".data, []),
   ("<div style=\"font-size:0.9em\">".data, " - ".data)]

/-- The sanitized text as the specification words it: every occurrence, in
the input, of a deleted fragment is removed and every occurrence of the styled
`div` fragment is replaced by `" - "`. -/
def sanitizeOnePass (html : String) : String :=
  String.mk (rewritePass sanitizeRules html.data.length html.data)

/-- The annotation of a presented itinerary, by the time `t` from the
presentation to its departure (`t` is not negative): "leaving soon" below 5
minutes, "good timing" below 15 minutes, otherwise none. -/
def departureLabel (t : Int) : String :=
  if t < 5 * Minute then " 🏃‍♂️ LEAVING SOON"
  else if t < 15 * Minute then " ⚡ GOOD TIMING"
  else ""

/-- What is presented for the itinerary at index `i` at presentation time `now`:
nothing when it departs before `now`, otherwise its lines with its annotation. -/
def presentedLines (now : Time) (entry : Nat × Route) : List String :=
  if entry.2.DepartureTime.nanos < now.nanos then []
  else
    printRouteLines entry.1 entry.2 (entry.2.DepartureTime.Sub now)
      (departureLabel (entry.2.DepartureTime.nanos - now.nanos))

/-! ## Concrete inputs -/

/-- A call time: 2023-11-14 22:13:20 UTC, rendered in a location 8 hours west. -/
def sampleNow : Time := { nanos := 1700000000 * Second, offset := -28800 }

/-- A clock that reads `sampleNow` at every reading. -/
def frozenClock : Nat → Time := fun _ => sampleNow

/-- A leg departing `off` minutes after `sampleNow` and lasting 10 minutes. -/
def sampleLeg (off : Int) : MapsLeg :=
  { Steps := []
    DistanceHumanReadable := "1.2 mi"
    Duration := 10 * Minute
    DepartureTime := sampleNow.Add (off * Minute)
    ArrivalTime := sampleNow.Add ((off + 10) * Minute) }

/-- A candidate with the single leg `sampleLeg off`. -/
def sampleCandidate (summary : String) (off : Int) : MapsRoute :=
  { Summary := summary, Legs := [sampleLeg off] }

/-- The itinerary built from `sampleCandidate summary off`. -/
def sampleRoute (summary : String) (off : Int) : Route :=
  mkRoute (sampleCandidate summary off) (sampleLeg off)

/-- The world before any call. -/
def world0 : World := { ticks := 0, sent := [] }

/-- The primary query answers with departures at -10, -3, +5 and +20 minutes. -/
def fourItineraries : List MapsRoute :=
  [sampleCandidate "Route 40" (-10), sampleCandidate "Route 62" (-3),
   sampleCandidate "Route 40" 5, sampleCandidate "Route 62" 20]

/-- An environment whose every directions call answers `fourItineraries`. -/
def fourEnv : Env := { clock := frozenClock, directions := fun _ _ => .ok fourItineraries }

/-- The primary query answers with one candidate departing exactly 5 minutes
ago and one departing 6 minutes ago. -/
def boundaryEnv : Env :=
  { clock := frozenClock
    directions := fun _ _ => .ok [sampleCandidate "Route 40" (-6), sampleCandidate "Route 62" (-5)] }

/-- The provider answers every query with zero candidates. -/
def emptyEnv : Env := { clock := frozenClock, directions := fun _ _ => .ok [] }

/-- The primary query (call 0) answers with one candidate that left 10 minutes
ago; every later query answers with one candidate leaving in 7 minutes. -/
def staleThenFreshEnv : Env :=
  { clock := frozenClock
    directions := fun k _ =>
      if k = 0 then .ok [sampleCandidate "Route 40" (-10)]
      else .ok [sampleCandidate "Route 40" 7] }

/-- The provider answers every query, primary and fallback alike, with the
same single candidate that left 10 minutes ago. -/
def alwaysStaleEnv : Env :=
  { clock := frozenClock, directions := fun _ _ => .ok [sampleCandidate "Route 40" (-10)] }

/-- Two itineraries with the same summary, 24 hours apart: the first departs
5 minutes after `sampleNow`, the second on the next day at the same clock time. -/
def todayRoute : Route := sampleRoute "Route 40" 5

/-- The itinerary of `todayRoute`, one day later. -/
def tomorrowRoute : Route := sampleRoute "Route 40" (5 + 24 * 60)

/-- The precise-location provider fails. -/
def deniedService : LocationService := fun _ => .error "location permission denied"

/-- An IP geolocation provider fails with an HTTP status. -/
def status500Service : LocationService := fun _ => .error "status: 500"

/-- An IP geolocation provider succeeds. -/
def ballardService : LocationService := fun _ => .ok "47.6686,-122.3860"

/-- The walking query answers with one leg of the given duration. -/
def walkEnv (dur : Duration) : Env :=
  { clock := frozenClock
    directions := fun _ _ =>
      .ok [{ Summary := "Pine St"
             Legs := [{ Steps := [], DistanceHumanReadable := "0.7 mi", Duration := dur,
                        DepartureTime := Time.zero, ArrivalTime := Time.zero }] }] }

/-- The walking query fails at the transport level. -/
def walkFailEnv : Env :=
  { clock := frozenClock, directions := fun _ _ => .error "REQUEST_DENIED" }

/-- The maps client accepts every key. -/
def acceptKey : String → Option String := fun _ => none

/-! ## Lemmas: sort.Slice -/

theorem insertLeft_perm {α : Type} (less : α → α → Bool) (x : α) (l : List α) :
    (insertLeft less x l).Perm (x :: l) := by
  induction l with
  | nil => simp [insertLeft]
  | cons p ps ih =>
    unfold insertLeft
    split
    · exact (List.Perm.cons p ih).trans (List.Perm.swap x p ps)
    · exact List.Perm.refl _

theorem foldl_insertLeft_perm {α : Type} (less : α → α → Bool) (xs acc : List α) :
    (xs.foldl (fun sortedRev x => insertLeft less x sortedRev) acc).Perm (xs ++ acc) := by
  induction xs generalizing acc with
  | nil => simp
  | cons x xs ih =>
    simp only [List.foldl_cons]
    refine (ih _).trans ?_
    refine (List.Perm.append_left xs (insertLeft_perm less x acc)).trans ?_
    exact List.perm_middle

theorem sortSlice_perm {α : Type} (less : α → α → Bool) (xs : List α) :
    (sortSlice less xs).Perm xs := by
  unfold sortSlice
  refine (List.reverse_perm _).trans ?_
  simpa using foldl_insertLeft_perm less xs []

theorem insertLeft_descending {α : Type} (f : α → Int) (less : α → α → Bool)
    (hless : ∀ a b, less a b = decide (f a < f b)) (x : α) (l : List α)
    (hl : l.Pairwise (fun a b => f b ≤ f a)) :
    (insertLeft less x l).Pairwise (fun a b => f b ≤ f a) := by
  induction l with
  | nil => simp [insertLeft]
  | cons p ps ih =>
    rw [List.pairwise_cons] at hl
    unfold insertLeft
    by_cases hx : f x < f p
    · have hlt : less x p = true := by rw [hless]; exact decide_eq_true hx
      rw [if_pos hlt, List.pairwise_cons]
      refine ⟨?_, ih hl.2⟩
      intro y hy
      rcases List.mem_cons.mp ((insertLeft_perm less x ps).mem_iff.mp hy) with h | h
      · rw [h]; exact le_of_lt hx
      · exact hl.1 y h
    · have hlt : ¬ less x p = true := by rw [hless]; simpa using hx
      rw [if_neg hlt, List.pairwise_cons]
      refine ⟨?_, List.pairwise_cons.mpr hl⟩
      intro y hy
      rcases List.mem_cons.mp hy with h | h
      · rw [h]; exact not_lt.mp hx
      · exact le_trans (hl.1 y h) (not_lt.mp hx)

theorem foldl_insertLeft_descending {α : Type} (f : α → Int) (less : α → α → Bool)
    (hless : ∀ a b, less a b = decide (f a < f b)) (xs acc : List α)
    (hacc : acc.Pairwise (fun a b => f b ≤ f a)) :
    (xs.foldl (fun sortedRev x => insertLeft less x sortedRev) acc).Pairwise
      (fun a b => f b ≤ f a) := by
  induction xs generalizing acc with
  | nil => simpa using hacc
  | cons x xs ih =>
    simp only [List.foldl_cons]
    exact ih _ (insertLeft_descending f less hless x acc hacc)

theorem sortSlice_sorted {α : Type} (f : α → Int) (less : α → α → Bool)
    (hless : ∀ a b, less a b = decide (f a < f b)) (xs : List α) :
    (sortSlice less xs).Pairwise (fun a b => f a ≤ f b) := by
  unfold sortSlice
  rw [List.pairwise_reverse]
  exact foldl_insertLeft_descending f less hless xs [] List.Pairwise.nil

theorem sortSlice_ascending (routes : List Route) :
    AscendingByDeparture (sortSlice lessByDeparture routes) := by
  have h := sortSlice_sorted (fun r : Route => r.DepartureTime.nanos) lessByDeparture
    (fun _ _ => rfl) routes
  exact h

theorem sortSlice_length {α : Type} (less : α → α → Bool) (xs : List α) :
    (sortSlice less xs).length = xs.length :=
  (sortSlice_perm less xs).length_eq

/-! ## Lemmas: the primary loop -/

theorem nextRoutesLoop_sent (env : Env) (resp : List MapsRoute) (acc : List Route) (w : World) :
    (nextRoutesLoop env resp acc w).2.sent = w.sent := by
  induction resp generalizing acc w with
  | nil => rfl
  | cons c rest ih =>
    unfold nextRoutesLoop
    cases hL : c.Legs with
    | nil => simpa using ih acc w
    | cons leg more =>
      simp only [timeNow]
      split
      · rw [ih]
      · rw [ih]

theorem nextRoutesLoop_frozen (env : Env) (now : Time) (hclock : ∀ k, env.clock k = now)
    (resp : List MapsRoute) (acc : List Route) (w : World) :
    (nextRoutesLoop env resp acc w).1 = acc ++ freshRoutes now resp := by
  induction resp generalizing acc w with
  | nil => simp [nextRoutesLoop, freshRoutes]
  | cons c rest ih =>
    unfold nextRoutesLoop
    cases hL : c.Legs with
    | nil =>
      have hf : freshRoutes now (c :: rest) = freshRoutes now rest := by
        simp [freshRoutes, List.filterMap_cons, hL]
      simpa [hf] using ih acc w
    | cons leg more =>
      simp only [timeNow, hclock]
      by_cases hs : leg.DepartureTime.nanos < now.nanos - 5 * Minute
      · have hb : leg.DepartureTime.Before (now.Add (-5 * Minute)) = true := by
          simp only [Time.Before, Time.Add, decide_eq_true_eq]
          omega
        have hs2 : ¬ now.nanos ≤ leg.DepartureTime.nanos + 5 * Minute := by omega
        have hf : freshRoutes now (c :: rest) = freshRoutes now rest := by
          simp [freshRoutes, List.filterMap_cons, hL, hs2]
        rw [if_pos hb, ih, hf]
      · have hb : ¬ leg.DepartureTime.Before (now.Add (-5 * Minute)) = true := by
          simp only [Time.Before, Time.Add, decide_eq_true_eq]
          omega
        have hs2 : now.nanos ≤ leg.DepartureTime.nanos + 5 * Minute := by omega
        have hf : freshRoutes now (c :: rest) = mkRoute c leg :: freshRoutes now rest := by
          simp [freshRoutes, List.filterMap_cons, hL, hs2]
        rw [if_neg hb, ih, hf]
        simp

theorem GetNextRoutes_of_fresh (env : Env) (origin destination : String) (hours : Int)
    (w : World) (now : Time) (resp : List MapsRoute)
    (hresp : env.directions w.sent.length (primaryRequest origin destination) = .ok resp)
    (hclock : ∀ k, env.clock k = now)
    (hfne : freshRoutes now resp ≠ []) :
    (GetNextRoutes env origin destination hours w).1 =
        .ok (sortSlice lessByDeparture (freshRoutes now resp)) ∧
      (GetNextRoutes env origin destination hours w).2.sent =
        w.sent ++ [primaryRequest origin destination] := by
  have hne : resp ≠ [] := by
    intro h
    apply hfne
    simp [h, freshRoutes]
  have hlen : ¬ (resp.length == 0) = true := by
    simpa using hne
  have hlen2 : ¬ ((freshRoutes now resp).length == 0) = true := by
    simpa using hfne
  constructor
  · simp only [GetNextRoutes, Directions, hresp, if_neg hlen]
    rw [nextRoutesLoop_frozen env now hclock]
    simp only [List.nil_append, if_neg hlen2]
  · simp only [GetNextRoutes, Directions, hresp, if_neg hlen]
    rw [nextRoutesLoop_frozen env now hclock]
    simp only [List.nil_append, if_neg hlen2]
    rw [nextRoutesLoop_sent]

/-! ## C1 -/

/-- C1: when the primary query answers `resp`, the clock reads `now` throughout
the call, and some candidate with a leg has a first-leg departure not more than
5 minutes before `now`, then `GetNextRoutes` succeeds, its result is a
permutation of the itineraries of exactly the candidates that have a leg and
depart at or after `now` minus 5 minutes (the boundary included), in ascending
order of departure time, and the only request sent is the primary one. -/
theorem GetNextRoutes_primary_fresh (env : Env) (origin destination : String) (hours : Int)
    (w : World) (now : Time) (resp : List MapsRoute)
    (hresp : env.directions w.sent.length (primaryRequest origin destination) = .ok resp)
    (hclock : ∀ k, env.clock k = now)
    (hfresh : ∃ c ∈ resp, ∃ leg, c.Legs.head? = some leg ∧
      now.nanos - 5 * Minute ≤ leg.DepartureTime.nanos) :
    ∃ routes, (GetNextRoutes env origin destination hours w).1 = .ok routes ∧
      routes.Perm (freshRoutes now resp) ∧
      AscendingByDeparture routes ∧
      (GetNextRoutes env origin destination hours w).2.sent =
        w.sent ++ [primaryRequest origin destination] := by
  obtain ⟨c, hc, leg, hleg, hdep⟩ := hfresh
  have hmem : mkRoute c leg ∈ freshRoutes now resp := by
    unfold freshRoutes
    rw [List.mem_filterMap]
    refine ⟨c, hc, ?_⟩
    cases hL : c.Legs with
    | nil => simp [hL] at hleg
    | cons l more =>
      simp only [hL, List.head?_cons, Option.some.injEq] at hleg
      subst hleg
      simp [hdep]
  have hfne : freshRoutes now resp ≠ [] := List.ne_nil_of_mem hmem
  obtain ⟨hok, hsent⟩ :=
    GetNextRoutes_of_fresh env origin destination hours w now resp hresp hclock hfne
  exact ⟨sortSlice lessByDeparture (freshRoutes now resp), hok, sortSlice_perm _ _,
    sortSlice_ascending _, hsent⟩

/-- Witness of C1: one candidate departs exactly 5 minutes before the call and
is kept, another departs 6 minutes before and is dropped. -/
theorem GetNextRoutes_primary_fresh_witness :
    boundaryEnv.directions world0.sent.length (primaryRequest "A" "B") =
        .ok [sampleCandidate "Route 40" (-6), sampleCandidate "Route 62" (-5)] ∧
      (∀ k, boundaryEnv.clock k = sampleNow) ∧
      (∃ c ∈ [sampleCandidate "Route 40" (-6), sampleCandidate "Route 62" (-5)],
        ∃ leg, c.Legs.head? = some leg ∧
          sampleNow.nanos - 5 * Minute ≤ leg.DepartureTime.nanos) ∧
      freshRoutes sampleNow [sampleCandidate "Route 40" (-6), sampleCandidate "Route 62" (-5)] =
        [sampleRoute "Route 62" (-5)] ∧
      ∃ routes, (GetNextRoutes boundaryEnv "A" "B" 2 world0).1 = .ok routes ∧
        routes.Perm
          (freshRoutes sampleNow [sampleCandidate "Route 40" (-6), sampleCandidate "Route 62" (-5)]) ∧
        AscendingByDeparture routes ∧
        (GetNextRoutes boundaryEnv "A" "B" 2 world0).2.sent =
          world0.sent ++ [primaryRequest "A" "B"] :=
  have hfresh : ∃ c ∈ [sampleCandidate "Route 40" (-6), sampleCandidate "Route 62" (-5)],
      ∃ leg, c.Legs.head? = some leg ∧
        sampleNow.nanos - 5 * Minute ≤ leg.DepartureTime.nanos :=
    ⟨sampleCandidate "Route 62" (-5), by simp, sampleLeg (-5), rfl, by decide⟩
  ⟨rfl, fun _ => rfl, hfresh, by decide,
    GetNextRoutes_primary_fresh boundaryEnv "A" "B" 2 world0 sampleNow
      [sampleCandidate "Route 40" (-6), sampleCandidate "Route 62" (-5)] rfl (fun _ => rfl) hfresh⟩

/-! ## C2 -/

theorem ascending_perm_unique (l l' : List Route) (hp : l.Perm l')
    (hl : AscendingByDeparture l)
    (hl' : l'.Pairwise (fun a b => a.DepartureTime.nanos < b.DepartureTime.nanos)) :
    l = l' := by
  let r : Route → Route → Prop := fun a b =>
    a.DepartureTime.nanos ≤ b.DepartureTime.nanos ∧
      (b.DepartureTime.nanos ≤ a.DepartureTime.nanos → a = b)
  haveI : IsAntisymm Route r := ⟨fun a b hab hba => hab.2 hba.1⟩
  have hdist : ∀ a ∈ l', ∀ b ∈ l', a ≠ b → a.DepartureTime.nanos ≠ b.DepartureTime.nanos := by
    have hne : l'.Pairwise (fun a b => a.DepartureTime.nanos ≠ b.DepartureTime.nanos) :=
      hl'.imp (fun h => ne_of_lt h)
    intro a ha b hb hab
    exact hne.forall (fun x y hxy => hxy.symm) ha hb hab
  have h1 : l.Pairwise r := by
    refine List.Pairwise.imp_of_mem ?_ hl
    intro a b ha hb hab
    refine ⟨hab, fun hba => ?_⟩
    by_contra hne
    exact hdist a (hp.mem_iff.mp ha) b (hp.mem_iff.mp hb) hne (le_antisymm hab hba)
  have h2 : l'.Pairwise r := by
    refine hl'.imp ?_
    intro a b hab
    exact ⟨le_of_lt hab, fun hba => absurd hab (not_lt.mpr hba)⟩
  exact List.eq_of_perm_of_sorted hp h1 h2

/-- C2 (as the code behaves): when the primary query answers four candidates
whose first legs depart 10 minutes before, 3 minutes before, 5 minutes after
and 20 minutes after `now`, in any order, the stale rule drops exactly the one
at -10 minutes; `GetNextRoutes` returns the itineraries at -3, +5 and +20
minutes in that order, and only the primary request is sent. -/
theorem GetNextRoutes_four_departures (env : Env) (origin destination : String) (hours : Int)
    (w : World) (now : Time) (resp : List MapsRoute)
    (c1 c2 c3 c4 : MapsRoute) (l1 l2 l3 l4 : MapsLeg)
    (hresp : env.directions w.sent.length (primaryRequest origin destination) = .ok resp)
    (hclock : ∀ k, env.clock k = now)
    (hperm : resp.Perm [c1, c2, c3, c4])
    (h1 : c1.Legs.head? = some l1) (h2 : c2.Legs.head? = some l2)
    (h3 : c3.Legs.head? = some l3) (h4 : c4.Legs.head? = some l4)
    (d1 : l1.DepartureTime.nanos = now.nanos - 10 * Minute)
    (d2 : l2.DepartureTime.nanos = now.nanos - 3 * Minute)
    (d3 : l3.DepartureTime.nanos = now.nanos + 5 * Minute)
    (d4 : l4.DepartureTime.nanos = now.nanos + 20 * Minute) :
    (GetNextRoutes env origin destination hours w).1 =
        .ok [mkRoute c2 l2, mkRoute c3 l3, mkRoute c4 l4] ∧
      (GetNextRoutes env origin destination hours w).2.sent =
        w.sent ++ [primaryRequest origin destination] := by
  have hM : (0 : Int) < Minute := by decide
  have hfour : freshRoutes now [c1, c2, c3, c4] = [mkRoute c2 l2, mkRoute c3 l3, mkRoute c4 l4] := by
    obtain ⟨s1, L1⟩ := c1
    obtain ⟨s2, L2⟩ := c2
    obtain ⟨s3, L3⟩ := c3
    obtain ⟨s4, L4⟩ := c4
    cases L1 with
    | nil => simp at h1
    | cons a1 t1 =>
    cases L2 with
    | nil => simp at h2
    | cons a2 t2 =>
    cases L3 with
    | nil => simp at h3
    | cons a3 t3 =>
    cases L4 with
    | nil => simp at h4
    | cons a4 t4 =>
    simp only [List.head?_cons, Option.some.injEq] at h1 h2 h3 h4
    subst h1 h2 h3 h4
    have e1 : ¬ now.nanos - 5 * Minute ≤ a1.DepartureTime.nanos := by omega
    have e2 : now.nanos - 5 * Minute ≤ a2.DepartureTime.nanos := by omega
    have e3 : now.nanos - 5 * Minute ≤ a3.DepartureTime.nanos := by omega
    have e4 : now.nanos - 5 * Minute ≤ a4.DepartureTime.nanos := by omega
    simp only [freshRoutes, List.filterMap_cons, List.filterMap_nil, if_pos e2, if_pos e3,
      if_pos e4, if_neg e1]
  have hfp : (freshRoutes now resp).Perm [mkRoute c2 l2, mkRoute c3 l3, mkRoute c4 l4] := by
    rw [← hfour]
    exact List.Perm.filterMap _ hperm
  have hfne : freshRoutes now resp ≠ [] := by
    intro h
    rw [h] at hfp
    simpa using hfp.length_eq
  obtain ⟨hok, hsent⟩ :=
    GetNextRoutes_of_fresh env origin destination hours w now resp hresp hclock hfne
  refine ⟨?_, hsent⟩
  rw [hok]
  congr 1
  refine ascending_perm_unique _ _ ((sortSlice_perm _ _).trans hfp) (sortSlice_ascending _) ?_
  simp only [List.pairwise_cons, List.mem_cons, List.mem_singleton, mkRoute, List.not_mem_nil,
    forall_eq_or_imp, forall_eq, IsEmpty.forall_iff, implies_true, List.Pairwise.nil, and_true]
  omega

/-- Witness of the amended C2 on the response `fourItineraries`. -/
theorem GetNextRoutes_four_departures_witness :
    (GetNextRoutes fourEnv "A" "B" 2 world0).1 =
        .ok [mkRoute (sampleCandidate "Route 62" (-3)) (sampleLeg (-3)),
          mkRoute (sampleCandidate "Route 40" 5) (sampleLeg 5),
          mkRoute (sampleCandidate "Route 62" 20) (sampleLeg 20)] ∧
      (GetNextRoutes fourEnv "A" "B" 2 world0).2.sent =
        world0.sent ++ [primaryRequest "A" "B"] :=
  GetNextRoutes_four_departures fourEnv "A" "B" 2 world0 sampleNow fourItineraries
    (sampleCandidate "Route 40" (-10)) (sampleCandidate "Route 62" (-3))
    (sampleCandidate "Route 40" 5) (sampleCandidate "Route 62" 20)
    (sampleLeg (-10)) (sampleLeg (-3)) (sampleLeg 5) (sampleLeg 20)
    rfl (fun _ => rfl) (List.Perm.refl _) rfl rfl rfl rfl
    (by decide) (by decide) (by decide) (by decide)

/-- Counterexample to C2 as stated: on departures at -10, -3, +5 and +20
minutes the result is not the two itineraries at +5 and +20 minutes; the
itinerary at -3 minutes is returned as well, and comes first. -/
theorem GetNextRoutes_keeps_three_minutes_ago :
    (GetNextRoutes fourEnv "A" "B" 2 world0).1 ≠
        .ok [sampleRoute "Route 40" 5, sampleRoute "Route 62" 20] ∧
      (GetNextRoutes fourEnv "A" "B" 2 world0).1 =
        .ok [sampleRoute "Route 62" (-3), sampleRoute "Route 40" 5, sampleRoute "Route 62" 20] := by
  decide

/-! ## Lemmas: removeDuplicateRoutes -/

theorem removeDuplicateLoop_eq (l : List Route) (seen : List String) (unique : List Route) :
    removeDuplicateLoop l seen unique = unique ++ firstByKey seen l := by
  induction l generalizing seen unique with
  | nil => simp [removeDuplicateLoop, firstByKey]
  | cons r rest ih =>
    unfold removeDuplicateLoop firstByKey
    by_cases h : routeKey r ∈ seen
    · simp [h, ih]
    · simp [h, ih]

theorem removeDuplicateRoutes_eq (l : List Route) :
    removeDuplicateRoutes l = firstByKey [] l := by
  simp [removeDuplicateRoutes, removeDuplicateLoop_eq]

theorem firstByKey_sublist (seen : List String) (l : List Route) :
    (firstByKey seen l).Sublist l := by
  induction l generalizing seen with
  | nil => simp [firstByKey]
  | cons r rest ih =>
    unfold firstByKey
    split
    · exact (ih seen).cons r
    · exact (ih _).cons₂ r

theorem firstByKey_first (seen : List String) (l : List Route) :
    ∀ y ∈ firstByKey seen l,
      routeKey y ∉ seen ∧ l.find? (fun x => routeKey x == routeKey y) = some y := by
  induction l generalizing seen with
  | nil => simp [firstByKey]
  | cons r rest ih =>
    intro y hy
    unfold firstByKey at hy
    by_cases h : routeKey r ∈ seen
    · rw [if_pos h] at hy
      obtain ⟨hns, hfind⟩ := ih seen y hy
      refine ⟨hns, ?_⟩
      have hne : routeKey r ≠ routeKey y := fun e => hns (e ▸ h)
      simp [List.find?_cons, hne, hfind]
    · rw [if_neg h] at hy
      rcases List.mem_cons.mp hy with e | hy'
      · subst e
        exact ⟨h, by simp [List.find?_cons]⟩
      · obtain ⟨hns, hfind⟩ := ih _ y hy'
        have hns1 : routeKey y ∉ seen := fun hm => hns (List.mem_append_left _ hm)
        have hne : routeKey r ≠ routeKey y := fun e => hns (by simp [e])
        exact ⟨hns1, by simp [List.find?_cons, hne, hfind]⟩

theorem firstByKey_nodup (seen : List String) (l : List Route) :
    ((firstByKey seen l).map routeKey).Nodup := by
  induction l generalizing seen with
  | nil => simp [firstByKey]
  | cons r rest ih =>
    unfold firstByKey
    by_cases h : routeKey r ∈ seen
    · rw [if_pos h]; exact ih seen
    · rw [if_neg h, List.map_cons, List.nodup_cons]
      refine ⟨?_, ih _⟩
      intro hm
      obtain ⟨y, hy, hk⟩ := List.mem_map.mp hm
      exact (firstByKey_first _ rest y hy).1 (by simp [hk])

theorem firstByKey_covers (seen : List String) (l : List Route) :
    ∀ x ∈ l, routeKey x ∈ seen ∨ ∃ y ∈ firstByKey seen l, routeKey y = routeKey x := by
  induction l generalizing seen with
  | nil => simp
  | cons r rest ih =>
    intro x hx
    unfold firstByKey
    by_cases h : routeKey r ∈ seen
    · rw [if_pos h]
      rcases List.mem_cons.mp hx with e | hx'
      · left; rw [e]; exact h
      · exact ih seen x hx'
    · rw [if_neg h]
      rcases List.mem_cons.mp hx with e | hx'
      · right; exact ⟨r, by simp, by rw [e]⟩
      · rcases ih (seen ++ [routeKey r]) x hx' with hm | ⟨y, hy, hk⟩
        · rcases List.mem_append.mp hm with hm' | hm'
          · left; exact hm'
          · right
            refine ⟨r, by simp, ?_⟩
            simpa using (List.mem_singleton.mp hm').symm
        · right; exact ⟨y, List.mem_cons_of_mem _ hy, hk⟩

/-! ## Lemmas: the fallback loop -/

theorem fallbackLoop_step (env : Env) (origin destination : String) (n i : Nat)
    (acc : List Route) (w : World) :
    fallbackLoop env origin destination (n + 1) i acc w =
      fallbackLoop env origin destination n (i + 1)
        (acc ++ (fallbackContribution
          (env.directions w.sent.length
            (fallbackRequest origin destination (env.clock w.ticks) i))).toList)
        { ticks := w.ticks + 1
          sent := w.sent ++ [fallbackRequest origin destination (env.clock w.ticks) i] } := by
  rw [fallbackLoop]
  simp only [timeNow, Directions]
  cases hres : env.directions w.sent.length
      (fallbackRequest origin destination (env.clock w.ticks) i) with
  | error e => simp [fallbackContribution]
  | ok resp =>
    cases resp with
    | nil => simp [fallbackContribution]
    | cons c rest =>
      cases hL : c.Legs with
      | nil => simp [fallbackContribution, hL]
      | cons leg more => simp [fallbackContribution, hL]

theorem toList_append_three (a b c : Option Route) :
    a.toList ++ (b.toList ++ c.toList) = List.reduceOption [a, b, c] := by
  cases a <;> cases b <;> cases c <;> simp [List.reduceOption]

theorem fallbackLoop_three (env : Env) (origin destination : String) (w : World) :
    fallbackLoop env origin destination 3 0 [] w =
      (List.reduceOption
        [fallbackContribution (env.directions w.sent.length
            (fallbackRequest origin destination (env.clock w.ticks) 0)),
          fallbackContribution (env.directions (w.sent.length + 1)
            (fallbackRequest origin destination (env.clock (w.ticks + 1)) 1)),
          fallbackContribution (env.directions (w.sent.length + 2)
            (fallbackRequest origin destination (env.clock (w.ticks + 2)) 2))],
        { ticks := w.ticks + 3
          sent := w.sent ++
            [fallbackRequest origin destination (env.clock w.ticks) 0,
              fallbackRequest origin destination (env.clock (w.ticks + 1)) 1,
              fallbackRequest origin destination (env.clock (w.ticks + 2)) 2] }) := by
  rw [fallbackLoop_step, fallbackLoop_step, fallbackLoop_step, fallbackLoop]
  simp only [List.length_append, List.length_singleton, List.nil_append, List.append_assoc,
    List.singleton_append, Nat.add_assoc, Nat.reduceAdd, Nat.zero_add, List.cons_append,
    toList_append_three, List.length_cons, List.length_nil]

theorem getFallbackRoutes_eq (env : Env) (origin destination : String) (hours : Int)
    (w : World) :
    getFallbackRoutes env origin destination hours w =
      (.ok (sortSlice lessByDeparture
          (removeDuplicateRoutes (fallbackLoop env origin destination 3 0 [] w).1)),
        (fallbackLoop env origin destination 3 0 [] w).2) := by
  unfold getFallbackRoutes
  generalize fallbackLoop env origin destination 3 0 [] w = r
  rfl

theorem removeDuplicateRoutes_length_le (l : List Route) :
    (removeDuplicateRoutes l).length ≤ l.length := by
  rw [removeDuplicateRoutes_eq]
  exact (firstByKey_sublist [] l).length_le

theorem reduceOption_length_le_three (a b c : Option Route) :
    (List.reduceOption [a, b, c]).length ≤ 3 := by
  cases a <;> cases b <;> cases c <;> simp [List.reduceOption]

/-! ## C4 -/

/-- C4: whatever the three fallback queries answer (transport error, no
candidate, a first candidate without a leg, or a usable response),
`getFallbackRoutes` sends exactly three requests, the i-th for the departure
time read from the clock plus 0, 20 and 40 minutes and none of them asking for
alternatives, takes from each answer at most the first candidate's first leg,
and returns success; the result holds at most three itineraries and is empty
when no attempt contributes. -/
theorem getFallbackRoutes_three_attempts (env : Env) (origin destination : String)
    (hours : Int) (w : World) :
    ∃ req0 req1 req2 routes,
      (getFallbackRoutes env origin destination hours w).2.sent = w.sent ++ [req0, req1, req2] ∧
      req0 = { Origin := origin, Destination := destination, Mode := "transit",
               DepartureTime := toString (env.clock w.ticks).Unix,
               Alternatives := false, Units := "imperial" } ∧
      req1 = { Origin := origin, Destination := destination, Mode := "transit",
               DepartureTime := toString ((env.clock (w.ticks + 1)).Add (20 * Minute)).Unix,
               Alternatives := false, Units := "imperial" } ∧
      req2 = { Origin := origin, Destination := destination, Mode := "transit",
               DepartureTime := toString ((env.clock (w.ticks + 2)).Add (40 * Minute)).Unix,
               Alternatives := false, Units := "imperial" } ∧
      (getFallbackRoutes env origin destination hours w).1 = .ok routes ∧
      routes.Perm (removeDuplicateRoutes (List.reduceOption
        [fallbackContribution (env.directions w.sent.length req0),
          fallbackContribution (env.directions (w.sent.length + 1) req1),
          fallbackContribution (env.directions (w.sent.length + 2) req2)])) ∧
      routes.length ≤ 3 ∧
      (fallbackContribution (env.directions w.sent.length req0) = none →
        fallbackContribution (env.directions (w.sent.length + 1) req1) = none →
        fallbackContribution (env.directions (w.sent.length + 2) req2) = none →
        routes = []) := by
  refine ⟨fallbackRequest origin destination (env.clock w.ticks) 0,
    fallbackRequest origin destination (env.clock (w.ticks + 1)) 1,
    fallbackRequest origin destination (env.clock (w.ticks + 2)) 2,
    sortSlice lessByDeparture
      (removeDuplicateRoutes (fallbackLoop env origin destination 3 0 [] w).1),
    ?_, ?_, ?_, ?_, ?_, ?_, ?_, ?_⟩
  · rw [getFallbackRoutes_eq, fallbackLoop_three]
  · simp [fallbackRequest, Time.Add]
  · simp [fallbackRequest]
  · simp [fallbackRequest]
  · rw [getFallbackRoutes_eq, fallbackLoop_three]
  · rw [fallbackLoop_three]
    exact sortSlice_perm _ _
  · rw [fallbackLoop_three, sortSlice_length]
    exact le_trans (removeDuplicateRoutes_length_le _) (reduceOption_length_le_three _ _ _)
  · intro h0 h1 h2
    rw [fallbackLoop_three, h0, h1, h2]
    rfl

/-! ## C3 -/

theorem GetNextRoutes_of_stale (env : Env) (origin destination : String) (hours : Int)
    (w : World) (now : Time) (resp : List MapsRoute)
    (hresp : env.directions w.sent.length (primaryRequest origin destination) = .ok resp)
    (hclock : ∀ k, env.clock k = now)
    (hne : resp ≠ [])
    (hstale : freshRoutes now resp = []) :
    GetNextRoutes env origin destination hours w =
      getFallbackRoutes env origin destination hours
        (nextRoutesLoop env resp []
          { ticks := w.ticks, sent := w.sent ++ [primaryRequest origin destination] }).2 := by
  have hlen : ¬ (resp.length == 0) = true := by
    simpa using hne
  have hloop := nextRoutesLoop_frozen env now hclock resp []
    { ticks := w.ticks, sent := w.sent ++ [primaryRequest origin destination] }
  rw [hstale] at hloop
  simp only [GetNextRoutes, Directions, hresp, if_neg hlen]
  generalize nextRoutesLoop env resp []
    { ticks := w.ticks, sent := w.sent ++ [primaryRequest origin destination] } = r at hloop
  obtain ⟨r1, r2⟩ := r
  simp only [List.append_nil] at hloop
  subst hloop
  simp

/-- C3 (as the code behaves): let the primary query answer `resp` with the
clock reading `now`, and let the stale rule keep nothing. If `resp` holds at
least one candidate, `GetNextRoutes` runs the fallback: it sends the three
fallback requests after the primary one and returns the fallback result, which
is a success. If `resp` holds no candidate at all, `GetNextRoutes` fails with
"no routes found" and sends nothing beyond the primary request. -/
theorem GetNextRoutes_nothing_fresh (env : Env) (origin destination : String) (hours : Int)
    (w : World) (now : Time) (resp : List MapsRoute)
    (hresp : env.directions w.sent.length (primaryRequest origin destination) = .ok resp)
    (hclock : ∀ k, env.clock k = now)
    (hstale : freshRoutes now resp = []) :
    (resp = [] →
      GetNextRoutes env origin destination hours w =
        (.error "no routes found",
          { ticks := w.ticks, sent := w.sent ++ [primaryRequest origin destination] })) ∧
    (resp ≠ [] →
      ∃ routes w1,
        w1.sent = w.sent ++ [primaryRequest origin destination] ∧
        GetNextRoutes env origin destination hours w =
          getFallbackRoutes env origin destination hours w1 ∧
        (GetNextRoutes env origin destination hours w).1 = .ok routes ∧
        (GetNextRoutes env origin destination hours w).2.sent =
          w.sent ++ [primaryRequest origin destination,
            fallbackRequest origin destination now 0,
            fallbackRequest origin destination now 1,
            fallbackRequest origin destination now 2]) := by
  constructor
  · intro he
    subst he
    simp [GetNextRoutes, Directions, hresp]
  · intro hne
    have h := GetNextRoutes_of_stale env origin destination hours w now resp hresp hclock
      hne hstale
    have hs := nextRoutesLoop_sent env resp []
      { ticks := w.ticks, sent := w.sent ++ [primaryRequest origin destination] }
    refine ⟨sortSlice lessByDeparture (removeDuplicateRoutes
        (fallbackLoop env origin destination 3 0 []
          (nextRoutesLoop env resp []
            { ticks := w.ticks, sent := w.sent ++ [primaryRequest origin destination] }).2).1),
      _, hs, h, ?_, ?_⟩
    · rw [h, getFallbackRoutes_eq]
    · rw [h, getFallbackRoutes_eq, fallbackLoop_three]
      simp [hs, hclock]

/-- Witness of the amended C3: the only primary candidate left 10 minutes ago,
so the three fallback requests follow the primary one and the call succeeds. -/
theorem GetNextRoutes_nothing_fresh_witness :
    staleThenFreshEnv.directions world0.sent.length (primaryRequest "A" "B") =
        .ok [sampleCandidate "Route 40" (-10)] ∧
      (∀ k, staleThenFreshEnv.clock k = sampleNow) ∧
      freshRoutes sampleNow [sampleCandidate "Route 40" (-10)] = [] ∧
      (GetNextRoutes staleThenFreshEnv "A" "B" 2 world0).1 = .ok [sampleRoute "Route 40" 7] ∧
      ∃ routes w1,
        w1.sent = world0.sent ++ [primaryRequest "A" "B"] ∧
        GetNextRoutes staleThenFreshEnv "A" "B" 2 world0 =
          getFallbackRoutes staleThenFreshEnv "A" "B" 2 w1 ∧
        (GetNextRoutes staleThenFreshEnv "A" "B" 2 world0).1 = .ok routes ∧
        (GetNextRoutes staleThenFreshEnv "A" "B" 2 world0).2.sent =
          world0.sent ++ [primaryRequest "A" "B", fallbackRequest "A" "B" sampleNow 0,
            fallbackRequest "A" "B" sampleNow 1, fallbackRequest "A" "B" sampleNow 2] :=
  ⟨rfl, fun _ => rfl, by decide, by decide,
    (GetNextRoutes_nothing_fresh staleThenFreshEnv "A" "B" 2 world0 sampleNow
      [sampleCandidate "Route 40" (-10)] rfl (fun _ => rfl) (by decide)).2 (by simp)⟩

/-- Counterexample to C3 as stated: when the primary query succeeds with zero
candidates, `GetNextRoutes` fails with "no routes found"; the primary request is
the only one sent, so no fallback query ran. -/
theorem GetNextRoutes_zero_candidates_fails :
    emptyEnv.directions world0.sent.length (primaryRequest "A" "B") = .ok [] ∧
      GetNextRoutes emptyEnv "A" "B" 2 world0 =
        (.error "no routes found", { ticks := 0, sent := [primaryRequest "A" "B"] }) := by
  decide

/-! ## C7 -/

/-- C7 fails on the fallback path: when the primary candidate is stale and the
fallback queries answer with an itinerary that left 10 minutes before the call,
`GetNextRoutes` succeeds and returns that itinerary, although it departs more
than 5 minutes before the call time. -/
theorem GetNextRoutes_fallback_returns_stale :
    (∀ k, alwaysStaleEnv.clock k = sampleNow) ∧
      (GetNextRoutes alwaysStaleEnv "A" "B" 2 world0).1 = .ok [sampleRoute "Route 40" (-10)] ∧
      (sampleRoute "Route 40" (-10)).DepartureTime.nanos = sampleNow.nanos - 10 * Minute ∧
      (sampleRoute "Route 40" (-10)).DepartureTime.Before (sampleNow.Add (-5 * Minute)) = true ∧
      (GetNextRoutes alwaysStaleEnv "A" "B" 2 world0).2.sent.length = 4 :=
  ⟨fun _ => rfl, by decide, by decide, by decide, by decide⟩

/-! ## Lemmas: the dedup key -/

theorem digit_char_inj (a b : Nat) (ha : a < 10) (hb : b < 10)
    (h : Char.ofNat (48 + a) = Char.ofNat (48 + b)) : a = b := by
  have key : ∀ x y : Fin 10, Char.ofNat (48 + x.val) = Char.ofNat (48 + y.val) → x = y := by
    decide
  exact congrArg Fin.val (key ⟨a, ha⟩ ⟨b, hb⟩ h)

theorem pad2_inj (m n : Nat) (hm : m < 100) (hn : n < 100) (h : pad2 m = pad2 n) : m = n := by
  simp only [pad2, List.cons.injEq, and_true] at h
  have h1 := digit_char_inj (m / 10) (n / 10) (by omega) (by omega) h.1
  have h2 := digit_char_inj (m % 10) (n % 10) (by omega) (by omega) h.2
  omega

theorem Time.Hour_lt (t : Time) : t.Hour < 24 := by
  unfold Time.Hour
  omega

theorem Time.MinuteOfHour_lt (t : Time) : t.MinuteOfHour < 60 := by
  unfold Time.MinuteOfHour
  omega

theorem format1504_length (t : Time) : (format1504 t).data.length = 5 := by
  simp [format1504, pad2]

theorem format1504_eq_iff (t u : Time) :
    format1504 t = format1504 u ↔ t.Hour = u.Hour ∧ t.MinuteOfHour = u.MinuteOfHour := by
  constructor
  · intro h
    have hd : pad2 t.Hour ++ [':'] ++ pad2 t.MinuteOfHour =
        pad2 u.Hour ++ [':'] ++ pad2 u.MinuteOfHour := by
      simpa [format1504] using congrArg String.data h
    have hh : pad2 t.Hour = pad2 u.Hour := by
      simp only [pad2, List.cons_append, List.nil_append, List.cons.injEq] at hd
      simp [pad2, hd.1, hd.2.1]
    have hmm : pad2 t.MinuteOfHour = pad2 u.MinuteOfHour := by
      simp only [pad2, List.cons_append, List.nil_append, List.cons.injEq] at hd
      simp [pad2, hd.2.2.2.1, hd.2.2.2.2.1]
    have := t.Hour_lt
    have := u.Hour_lt
    have := t.MinuteOfHour_lt
    have := u.MinuteOfHour_lt
    exact ⟨pad2_inj _ _ (by omega) (by omega) hh, pad2_inj _ _ (by omega) (by omega) hmm⟩
  · rintro ⟨h1, h2⟩
    simp [format1504, h1, h2]

theorem routeKey_eq_iff (a b : Route) :
    routeKey a = routeKey b ↔
      a.Summary = b.Summary ∧
        format1504 a.DepartureTime = format1504 b.DepartureTime ∧
        format1504 a.ArrivalTime = format1504 b.ArrivalTime := by
  constructor
  · intro h
    have hd : a.Summary.data ++ ['_'] ++ (format1504 a.DepartureTime).data ++ ['_'] ++
          (format1504 a.ArrivalTime).data =
        b.Summary.data ++ ['_'] ++ (format1504 b.DepartureTime).data ++ ['_'] ++
          (format1504 b.ArrivalTime).data := by
      simpa [routeKey] using congrArg String.data h
    obtain ⟨h1, harr⟩ := List.append_inj' hd (by rw [format1504_length, format1504_length])
    obtain ⟨h2, _⟩ := List.append_inj' h1 rfl
    obtain ⟨h3, hdep⟩ := List.append_inj' h2 (by rw [format1504_length, format1504_length])
    obtain ⟨hsum, _⟩ := List.append_inj' h3 rfl
    exact ⟨String.ext hsum, String.ext hdep, String.ext harr⟩
  · rintro ⟨h1, h2, h3⟩
    simp [routeKey, h1, h2, h3]

theorem dedup_pair_eq (a b : Route) :
    removeDuplicateRoutes [a, b] = if routeKey a = routeKey b then [a] else [a, b] := by
  by_cases h : routeKey a = routeKey b
  · simp [removeDuplicateRoutes, removeDuplicateLoop, h]
  · have h' : ¬ routeKey b = routeKey a := fun e => h e.symm
    simp [removeDuplicateRoutes, removeDuplicateLoop, h, h']

/-! ## C5 -/

/-- C5 (as the code behaves): of two itineraries `a` then `b`,
`removeDuplicateRoutes` drops `b` as a duplicate of `a` exactly when the
summaries are equal and the departure times show the same hour and minute on
the clock of their location, and so do the arrival times; the date plays no
role. Otherwise both are kept. -/
theorem removeDuplicateRoutes_pair (a b : Route) :
    (removeDuplicateRoutes [a, b] = [a] ↔
      (a.Summary = b.Summary ∧
        a.DepartureTime.Hour = b.DepartureTime.Hour ∧
        a.DepartureTime.MinuteOfHour = b.DepartureTime.MinuteOfHour ∧
        a.ArrivalTime.Hour = b.ArrivalTime.Hour ∧
        a.ArrivalTime.MinuteOfHour = b.ArrivalTime.MinuteOfHour)) ∧
    (removeDuplicateRoutes [a, b] = [a] ∨ removeDuplicateRoutes [a, b] = [a, b]) := by
  rw [dedup_pair_eq]
  by_cases h : routeKey a = routeKey b
  · have h' := (routeKey_eq_iff a b).mp h
    rw [format1504_eq_iff, format1504_eq_iff] at h'
    simp only [if_pos h, true_iff, true_or, and_true]
    exact ⟨h'.1, h'.2.1.1, h'.2.1.2, h'.2.2.1, h'.2.2.2⟩
  · simp only [if_neg h, List.cons.injEq, and_true, or_true]
    constructor
    · intro hc
      simp at hc
    · rintro ⟨h1, h2, h3, h4, h5⟩
      exact absurd ((routeKey_eq_iff a b).mpr
        ⟨h1, (format1504_eq_iff _ _).mpr ⟨h2, h3⟩, (format1504_eq_iff _ _).mpr ⟨h4, h5⟩⟩) h

/-- Counterexample to C5 as stated: two itineraries with the same summary whose
departures, and whose arrivals, are exactly 24 hours apart differ in the
departure time truncated to the minute, yet the later one is dropped as a
duplicate. -/
theorem removeDuplicateRoutes_ignores_date :
    todayRoute.Summary = tomorrowRoute.Summary ∧
      todayRoute.DepartureTime.truncMinute + 24 * 60 = tomorrowRoute.DepartureTime.truncMinute ∧
      todayRoute.ArrivalTime.truncMinute + 24 * 60 = tomorrowRoute.ArrivalTime.truncMinute ∧
      removeDuplicateRoutes [todayRoute, tomorrowRoute] = [todayRoute] ∧
      ¬ (removeDuplicateRoutes [todayRoute, tomorrowRoute] = [todayRoute] ↔
          (todayRoute.Summary = tomorrowRoute.Summary ∧
            todayRoute.DepartureTime.truncMinute = tomorrowRoute.DepartureTime.truncMinute ∧
            todayRoute.ArrivalTime.truncMinute = tomorrowRoute.ArrivalTime.truncMinute)) := by
  decide

/-! ## C6 -/

/-- C6: the sequence returned by `getFallbackRoutes` is a permutation of
`removeDuplicateRoutes` of the itineraries collected by the three attempts, in
ascending order of departure time; and for every list `collected`,
`removeDuplicateRoutes collected` is a subsequence of `collected` in which no
two itineraries share a key, every key of `collected` occurs, and each
itinerary is the first one of `collected` carrying its key. -/
theorem getFallbackRoutes_dedup_sorted (env : Env) (origin destination : String)
    (hours : Int) (w : World) :
    (∃ routes, (getFallbackRoutes env origin destination hours w).1 = .ok routes ∧
      routes.Perm (removeDuplicateRoutes (fallbackLoop env origin destination 3 0 [] w).1) ∧
      AscendingByDeparture routes) ∧
    ∀ collected : List Route,
      (removeDuplicateRoutes collected).Sublist collected ∧
      ((removeDuplicateRoutes collected).map routeKey).Nodup ∧
      (∀ x ∈ collected, ∃ y ∈ removeDuplicateRoutes collected, routeKey y = routeKey x) ∧
      (∀ y ∈ removeDuplicateRoutes collected,
        collected.find? (fun x => routeKey x == routeKey y) = some y) := by
  constructor
  · refine ⟨_, ?_, sortSlice_perm _ _, sortSlice_ascending _⟩
    rw [getFallbackRoutes_eq]
  · intro collected
    rw [removeDuplicateRoutes_eq]
    refine ⟨firstByKey_sublist _ _, firstByKey_nodup _ _, ?_, ?_⟩
    · intro x hx
      rcases firstByKey_covers [] collected x hx with h | h
      · simp at h
      · exact h
    · intro y hy
      exact (firstByKey_first [] collected y hy).2

/-! ## C8 -/

theorem tryServicesLoop_first_success (pre post : List LocationService) (s : LocationService)
    (out : String) (n : Nat)
    (hpre : ∀ f ∈ pre, ∃ e, f () = .error e) (hs : s () = .ok out) :
    tryServicesLoop (pre ++ s :: post) n = (.ok out, n + pre.length + 1) := by
  induction pre generalizing n with
  | nil => simp [tryServicesLoop, hs]
  | cons f rest ih =>
    obtain ⟨e, he⟩ := hpre f (by simp)
    have hrest : ∀ g ∈ rest, ∃ e, g () = .error e := fun g hg => hpre g (by simp [hg])
    have hstep : tryServicesLoop (f :: (rest ++ s :: post)) n =
        tryServicesLoop (rest ++ s :: post) (n + 1) := by
      simp only [tryServicesLoop, he]
    rw [List.cons_append, hstep, ih (n + 1) hrest, List.length_cons, Prod.mk.injEq]
    exact ⟨rfl, by omega⟩

/-- C8: whatever the providers of the chain answer, if every provider before
some position fails and the provider at that position succeeds with `out`, the
loop returns exactly `out` and has invoked the providers up to that position
and none after it; this holds for the chain of `tryLocationServices` (precise
location, IP service A, IP service B, default) in particular. -/
theorem tryLocationServices_first_success (services pre post : List LocationService)
    (s : LocationService) (out : String)
    (hsplit : services = pre ++ s :: post)
    (hpre : ∀ f ∈ pre, ∃ e, f () = .error e) (hs : s () = .ok out) :
    tryServicesLoop services 0 = (.ok out, pre.length + 1) ∧
      ∀ tryPreciseLocation tryIPAPI tryIPInfo,
        services = locationServices tryPreciseLocation tryIPAPI tryIPInfo →
        tryLocationServices tryPreciseLocation tryIPAPI tryIPInfo = (.ok out, pre.length + 1) := by
  have h : tryServicesLoop services 0 = (.ok out, pre.length + 1) := by
    rw [hsplit, tryServicesLoop_first_success pre post s out 0 hpre hs]
    simp
  refine ⟨h, ?_⟩
  intro p a b hchain
  unfold tryLocationServices
  rw [← hchain]
  exact h

/-- Witness of C8: providers 1 and 2 fail and provider 3 succeeds; the result is
provider 3's output and three providers were invoked. -/
theorem tryLocationServices_first_success_witness :
    locationServices deniedService status500Service ballardService =
        [deniedService, status500Service] ++ ballardService :: [tryDefault] ∧
      (∀ f ∈ [deniedService, status500Service], ∃ e, f () = .error e) ∧
      ballardService () = .ok "47.6686,-122.3860" ∧
      tryLocationServices deniedService status500Service ballardService =
        (.ok "47.6686,-122.3860", 3) :=
  have hpre : ∀ f ∈ [deniedService, status500Service], ∃ e, f () = .error e := by
    intro f hf
    simp only [List.mem_cons, List.mem_singleton, List.not_mem_nil, or_false] at hf
    rcases hf with h | h
    · exact ⟨"location permission denied", by rw [h]; rfl⟩
    · exact ⟨"status: 500", by rw [h]; rfl⟩
  ⟨rfl, hpre, rfl,
    (tryLocationServices_first_success
      (locationServices deniedService status500Service ballardService)
      [deniedService, status500Service] [tryDefault] ballardService "47.6686,-122.3860"
      rfl hpre rfl).2 deniedService status500Service ballardService rfl⟩

/-! ## C10 -/

/-- C10: if the walking-distance lookup succeeds with duration `dur` and label
`label`, `IsWithinWalkingDistance` returns `(isWalkable, dur, label, nil)` where
`isWalkable` is true exactly when `dur` is at most 15 minutes; if the lookup
fails with an error, it returns that error with `false`, duration 0 and an empty
label. -/
theorem IsWithinWalkingDistance_threshold (env : Env) (origin destination : String)
    (w : World) (dur : Duration) (label : String) (err : Option String)
    (hlookup : (GetWalkingDistance env origin destination w).1 = (dur, label, err)) :
    (err = none →
      (IsWithinWalkingDistance env origin destination w).1 =
          (decide (dur ≤ 15 * 60 * 1000000000), dur, label, none) ∧
        ((IsWithinWalkingDistance env origin destination w).1.1 = true ↔
          dur ≤ 15 * 60 * 1000000000)) ∧
    (∀ e, err = some e →
      (IsWithinWalkingDistance env origin destination w).1 = (false, 0, "", some e)) := by
  unfold IsWithinWalkingDistance
  generalize GetWalkingDistance env origin destination w = r at hlookup
  obtain ⟨⟨d, l, e0⟩, w1⟩ := r
  simp only [Prod.mk.injEq] at hlookup
  obtain ⟨hd, hl, he⟩ := hlookup
  subst hd hl he
  have hM : (15 : Int) * Minute = 15 * 60 * 1000000000 := by decide
  constructor
  · intro hnone
    subst hnone
    simp [hM]
  · intro e hsome
    subst hsome
    simp

/-- Witness of C10 at the boundary values: walks of 14:59 and 15:00 are
walkable, a walk of 15:01 is not, and a failed lookup returns its error. -/
theorem IsWithinWalkingDistance_threshold_witness :
    (GetWalkingDistance (walkEnv (899 * Second)) "A" "B" world0).1 =
        (899 * Second, "0.7 mi", none) ∧
      (IsWithinWalkingDistance (walkEnv (899 * Second)) "A" "B" world0).1 =
        (true, 899 * Second, "0.7 mi", none) ∧
      (IsWithinWalkingDistance (walkEnv (900 * Second)) "A" "B" world0).1 =
        (true, 900 * Second, "0.7 mi", none) ∧
      (IsWithinWalkingDistance (walkEnv (901 * Second)) "A" "B" world0).1 =
        (false, 901 * Second, "0.7 mi", none) ∧
      (IsWithinWalkingDistance walkFailEnv "A" "B" world0).1 =
        (false, 0, "", some "failed to get walking directions: REQUEST_DENIED") :=
  ⟨rfl,
    ((IsWithinWalkingDistance_threshold (walkEnv (899 * Second)) "A" "B" world0
      (899 * Second) "0.7 mi" none rfl).1 rfl).1,
    ((IsWithinWalkingDistance_threshold (walkEnv (900 * Second)) "A" "B" world0
      (900 * Second) "0.7 mi" none rfl).1 rfl).1,
    ((IsWithinWalkingDistance_threshold (walkEnv (901 * Second)) "A" "B" world0
      (901 * Second) "0.7 mi" none rfl).1 rfl).1,
    (IsWithinWalkingDistance_threshold walkFailEnv "A" "B" world0 0 ""
      (some "failed to get walking directions: REQUEST_DENIED") rfl).2 _ rfl⟩

/-! ## C14 -/

/-- C14: whatever the precise-location provider and the two IP geolocation
providers answer, `tryLocationServices` and `GetCurrentLocation` succeed, and
the error "all location services failed" is never returned; when the three
providers all fail, all four providers were invoked and the result is exactly
"47.6062,-122.3321", the output of `tryDefault`. -/
theorem tryLocationServices_never_fails
    (tryPreciseLocation tryIPAPI tryIPInfo : LocationService) :
    (∃ location,
      (tryLocationServices tryPreciseLocation tryIPAPI tryIPInfo).1 = .ok location ∧
      GetCurrentLocation tryPreciseLocation tryIPAPI tryIPInfo = .ok location) ∧
    (tryLocationServices tryPreciseLocation tryIPAPI tryIPInfo).1 ≠
      .error "all location services failed" ∧
    ((∃ e, tryPreciseLocation () = .error e) → (∃ e, tryIPAPI () = .error e) →
      (∃ e, tryIPInfo () = .error e) →
      tryLocationServices tryPreciseLocation tryIPAPI tryIPInfo =
          (.ok "47.6062,-122.3321", 4) ∧
        GetCurrentLocation tryPreciseLocation tryIPAPI tryIPInfo =
          .ok "47.6062,-122.3321") := by
  unfold GetCurrentLocation tryLocationServices locationServices
  cases h1 : tryPreciseLocation () with
  | ok l1 => simp [tryServicesLoop, h1, wrapLocationOutcome]
  | error e1 =>
    cases h2 : tryIPAPI () with
    | ok l2 => simp [tryServicesLoop, h1, h2, wrapLocationOutcome]
    | error e2 =>
      cases h3 : tryIPInfo () with
      | ok l3 => simp [tryServicesLoop, h1, h2, h3, wrapLocationOutcome]
      | error e3 => simp [tryServicesLoop, h1, h2, h3, wrapLocationOutcome, tryDefault]

/-! ## Lemmas: strings.ReplaceAll -/

theorem replaceAllAux_skip (old new : List Char) (k : Nat) (s : List Char) :
    replaceAllAux old new k s = replaceAllAux old new 0 (s.drop k) := by
  induction s generalizing k with
  | nil => simp [replaceAllAux]
  | cons c cs ih =>
    cases k with
    | zero => simp
    | succ k =>
      rw [replaceAllAux, ih k]
      simp

theorem replaceAllAux_eq_rewritePass (old new : List Char) (hold : old ≠ []) (n : Nat)
    (s : List Char) (hn : s.length ≤ n) :
    replaceAllAux old new 0 s = rewritePass [(old, new)] n s := by
  induction n generalizing s with
  | zero =>
    have hs : s = [] := List.length_eq_zero.mp (Nat.le_zero.mp hn)
    subst hs
    simp [replaceAllAux, rewritePass]
  | succ n ih =>
    cases s with
    | nil => simp [replaceAllAux, rewritePass]
    | cons c cs =>
      have hlen : cs.length ≤ n := by simpa using hn
      have hpos : 1 ≤ old.length := by
        cases old with
        | nil => exact absurd rfl hold
        | cons a as => simp
      by_cases hp : old.isPrefixOf (c :: cs) = true
      · have hdrop : (c :: cs).drop old.length = cs.drop (old.length - 1) := by
          obtain ⟨m, hm⟩ : ∃ m, old.length = m + 1 := ⟨old.length - 1, by omega⟩
          rw [hm]
          simp
        have hlen2 : (cs.drop (old.length - 1)).length ≤ n := by
          rw [List.length_drop]
          omega
        rw [replaceAllAux, if_pos hp, replaceAllAux_skip, ih _ hlen2]
        simp [rewritePass, List.find?_cons, hp, hdrop]
      · rw [replaceAllAux, if_neg hp, ih _ hlen]
        simp [rewritePass, List.find?_cons, hp]

theorem replaceAll_eq_replaceEvery (s old new : String) (hold : old.data ≠ []) :
    replaceAll s old new = String.mk (replaceEvery old new s.data) := by
  unfold replaceAll replaceEvery
  rw [replaceAllAux_eq_rewritePass old.data new.data hold s.data.length s.data (le_refl _)]

/-! ## C11 -/

/-- C11 (as the code behaves): for every input, `cleanHTML` returns the result
of five successive passes, each over the result of the one before: every
occurrence of `<b>` is deleted, then every occurrence of `</b>`, then of
`<div>`, then of `</div>`, and last every occurrence of
`<div style="font-size:0.9em">` is replaced by `" - "`. On the instruction
text of the specification the result is "Walk north on 5th - toward Pike St". -/
theorem cleanHTML_five_passes :
    (∀ html : String,
      cleanHTML html =
        String.mk
          (replaceEvery "<div style=\"font-size:0.9em\">" " - "
            (replaceEvery "</div>" ""
              (replaceEvery "<div>" ""
                (replaceEvery "</b>" ""
                  (replaceEvery "<b>" "" html.data)))))) ∧
    cleanHTML
        "Walk <b>north</b> on 5th<div style=\"font-size:0.9em\">toward Pike St</div>" =
      "Walk north on 5th - toward Pike St" := by
  constructor
  · intro html
    unfold cleanHTML
    simp only [replaceAll_eq_replaceEvery _ "<b>" "" (by decide),
      replaceAll_eq_replaceEvery _ "</b>" "" (by decide),
      replaceAll_eq_replaceEvery _ "<div>" "" (by decide),
      replaceAll_eq_replaceEvery _ "</div>" "" (by decide),
      replaceAll_eq_replaceEvery _ "<div style=\"font-size:0.9em\">" " - " (by decide)]
  · decide

/-- Counterexample to C11 as stated: in the text `<<b>/b>` the only fragment
that occurs is `<b>`, and deleting it leaves `</b>`; `cleanHTML` returns the
empty text instead, because its second pass deletes the `</b>` that the first
pass formed. Likewise a styled `div` fragment interrupted by `<b>` occurs
nowhere in the input, yet `cleanHTML` writes `" - "` for it. Nor is the result
always free of the fragments: for `<b<b>>` it is `<b>`. On the instruction text
of the specification the one-pass reading and `cleanHTML` agree. -/
theorem cleanHTML_removes_formed_fragments :
    sanitizeOnePass "<<b>/b>" = "</b>" ∧
      cleanHTML "<<b>/b>" = "" ∧
      cleanHTML "<<b>/b>" ≠ sanitizeOnePass "<<b>/b>" ∧
      sanitizeOnePass "<div style=\"font-<b>size:0.9em\">toward Pike St" =
        "<div style=\"font-size:0.9em\">toward Pike St" ∧
      cleanHTML "<div style=\"font-<b>size:0.9em\">toward Pike St" = " - toward Pike St" ∧
      cleanHTML "<b<b>>" = "<b>" ∧
      sanitizeOnePass
          "Walk <b>north</b> on 5th<div style=\"font-size:0.9em\">toward Pike St</div>" =
        "Walk north on 5th - toward Pike St" := by
  decide

/-! ## Lemmas: the driver -/

theorem GetWalkingDistance_world (env : Env) (origin destination : String) (w : World) :
    (GetWalkingDistance env origin destination w).2 =
      { ticks := w.ticks, sent := w.sent ++ [walkingRequest origin destination] } := by
  unfold GetWalkingDistance
  simp only [Directions]
  cases env.directions w.sent.length (walkingRequest origin destination) with
  | error e => rfl
  | ok resp =>
    cases resp with
    | nil => rfl
    | cons c rest =>
      cases hL : c.Legs with
      | nil => simp [hL]
      | cons leg more => simp [hL]

theorem GetNextRoutes_sends_primary (env : Env) (origin destination : String) (hours : Int)
    (w : World) :
    ∃ more, (GetNextRoutes env origin destination hours w).2.sent =
      w.sent ++ primaryRequest origin destination :: more := by
  unfold GetNextRoutes
  simp only [Directions]
  cases env.directions w.sent.length (primaryRequest origin destination) with
  | error e => exact ⟨[], rfl⟩
  | ok resp =>
    by_cases hlen : (resp.length == 0) = true
    · exact ⟨[], by simp [hlen]⟩
    · simp only [hlen]
      generalize hr : nextRoutesLoop env resp []
        { ticks := w.ticks, sent := w.sent ++ [primaryRequest origin destination] } = r
      have hs := nextRoutesLoop_sent env resp []
        { ticks := w.ticks, sent := w.sent ++ [primaryRequest origin destination] }
      rw [hr] at hs
      obtain ⟨routes, w2⟩ := r
      simp only at hs
      by_cases hz : (routes.length == 0) = true
      · simp only [hz, if_true, Bool.false_eq_true, if_false]
        rw [getFallbackRoutes_eq, fallbackLoop_three]
        simp only [hs]
        exact ⟨[fallbackRequest origin destination (env.clock w2.ticks) 0,
          fallbackRequest origin destination (env.clock (w2.ticks + 1)) 1,
          fallbackRequest origin destination (env.clock (w2.ticks + 2)) 2], by simp⟩
      · simp only [hz, Bool.false_eq_true, if_false]
        exact ⟨[], by simp [hs]⟩

/-! ## C12 -/

/-- C12: let the walking-distance lookup of the driver end with duration `dur`,
label `label` and error `err`. If it succeeds with `dur` at most 2 minutes, the
driver reports "already at" the destination and returns; if it succeeds with
`dur` above 2 and at most 15 minutes, the driver reports "already close", the
walking time and "just walk", and returns; in both cases the walking request is
the only request sent, so `GetNextRoutes` was not called. If it succeeds with
`dur` above 15 minutes, or fails, the driver goes on with what it makes of
`GetNextRoutes currentLoc destination 2`, whose primary request follows the
walking request. -/
theorem runFromDistanceCheck_walkability (env : Env) (newClient : String → Option String)
    (apiKey currentLoc destination destinationType : String) (w w1 : World)
    (dur : Duration) (label : String) (err : Option String)
    (hkey : newClient apiKey = none)
    (hlookup : GetWalkingDistance env currentLoc destination w = ((dur, label, err), w1)) :
    (err = none → dur ≤ 2 * Minute →
      runFromDistanceCheck env newClient apiKey currentLoc destination destinationType w =
        { out := ["📏 Checking distance... ", "✅\n",
                  "\n🏠 You\x27re already at " ++ destinationType ++ "!\n",
                  "📍 Current location matches your " ++ destinationType ++ " address\n"]
          exitCode := none
          world := { ticks := w.ticks
                     sent := w.sent ++ [walkingRequest currentLoc destination] } }) ∧
    (err = none → 2 * Minute < dur → dur ≤ 15 * Minute →
      runFromDistanceCheck env newClient apiKey currentLoc destination destinationType w =
        { out := ["📏 Checking distance... ", "✅\n",
                  "\n🚶‍♂️ You\x27re already close to " ++ destinationType ++ "!\n",
                  "Walking time: " ++ formatDuration dur ++ " (" ++ label ++ ")\n",
                  "💡 No transit needed - just walk!\n"]
          exitCode := none
          world := { ticks := w.ticks
                     sent := w.sent ++ [walkingRequest currentLoc destination] } }) ∧
    ((err ≠ none ∨ 15 * Minute < dur) →
      (runFromDistanceCheck env newClient apiKey currentLoc destination destinationType w).out =
          ["📏 Checking distance... ", "✅\n", "🚌 Finding transit routes... "] ++
            (presentRoutes env destination destinationType
              (GetNextRoutes env currentLoc destination 2 w1)).out ∧
        (runFromDistanceCheck env newClient apiKey currentLoc destination destinationType
            w).exitCode =
          (presentRoutes env destination destinationType
            (GetNextRoutes env currentLoc destination 2 w1)).exitCode ∧
        ∃ more,
          (GetNextRoutes env currentLoc destination 2 w1).2.sent =
            w.sent ++ walkingRequest currentLoc destination ::
              primaryRequest currentLoc destination :: more) := by
  have hw1 : w1 = { ticks := w.ticks, sent := w.sent ++ [walkingRequest currentLoc destination] } := by
    have h := GetWalkingDistance_world env currentLoc destination w
    rw [hlookup] at h
    exact h
  have hM : (Minute : Int) = 60000000000 := by decide
  refine ⟨?_, ?_, ?_⟩
  · intro herr hdur
    subst herr
    have h15 : dur ≤ 15 * Minute := by
      rw [hM] at hdur ⊢
      exact le_trans hdur (by decide)
    simp [runFromDistanceCheck, NewDistanceChecker, hkey, IsWithinWalkingDistance, hlookup,
      h15, hdur, hw1]
  · intro herr h2 h15
    subst herr
    have h2n : ¬ dur ≤ 2 * Minute := not_le.mpr h2
    simp [runFromDistanceCheck, NewDistanceChecker, hkey, IsWithinWalkingDistance, hlookup,
      h15, h2n, hw1]
  · intro hcase
    have hrun :
        runFromDistanceCheck env newClient apiKey currentLoc destination destinationType w =
          { out := ["📏 Checking distance... ", "✅\n"] ++
              (findTransitRoutes env newClient apiKey currentLoc destination destinationType
                w1).out
            exitCode := (findTransitRoutes env newClient apiKey currentLoc destination
              destinationType w1).exitCode
            world := (findTransitRoutes env newClient apiKey currentLoc destination
              destinationType w1).world } := by
      cases err with
      | some e =>
        simp [runFromDistanceCheck, NewDistanceChecker, hkey, IsWithinWalkingDistance, hlookup]
      | none =>
        have h15 : ¬ dur ≤ 15 * Minute := by
          rcases hcase with h | h
          · exact absurd rfl h
          · exact not_le.mpr h
        simp [runFromDistanceCheck, NewDistanceChecker, hkey, IsWithinWalkingDistance, hlookup,
          h15]
    have hfind :
        findTransitRoutes env newClient apiKey currentLoc destination destinationType w1 =
          { out := "🚌 Finding transit routes... " ::
              (presentRoutes env destination destinationType
                (GetNextRoutes env currentLoc destination 2 w1)).out
            exitCode := (presentRoutes env destination destinationType
              (GetNextRoutes env currentLoc destination 2 w1)).exitCode
            world := (presentRoutes env destination destinationType
              (GetNextRoutes env currentLoc destination 2 w1)).world } := by
      simp [findTransitRoutes, NewTransitService, hkey]
    refine ⟨?_, ?_, ?_⟩
    · rw [hrun, hfind]
      simp
    · rw [hrun, hfind]
    · obtain ⟨more, hmore⟩ := GetNextRoutes_sends_primary env currentLoc destination 2 w1
      refine ⟨more, ?_⟩
      rw [hmore, hw1]
      simp

/-- Witness of C12: a walk of 1 minute 30 seconds ends the run with "already
at home"; the walking request is the only request sent. -/
theorem runFromDistanceCheck_walkability_witness :
    acceptKey "key" = none ∧
      GetWalkingDistance (walkEnv (90 * Second)) "Pike St" "Pine St" world0 =
        ((90 * Second, "0.7 mi", none), { ticks := 0, sent := [walkingRequest "Pike St" "Pine St"] }) ∧
      runFromDistanceCheck (walkEnv (90 * Second)) acceptKey "key" "Pike St" "Pine St" "home"
          world0 =
        { out := ["📏 Checking distance... ", "✅\n",
                  "\n🏠 You\x27re already at " ++ "home" ++ "!\n",
                  "📍 Current location matches your " ++ "home" ++ " address\n"]
          exitCode := none
          world := { ticks := world0.ticks
                     sent := world0.sent ++ [walkingRequest "Pike St" "Pine St"] } } :=
  ⟨rfl, rfl,
    (runFromDistanceCheck_walkability (walkEnv (90 * Second)) acceptKey "key" "Pike St"
      "Pine St" "home" world0 { ticks := 0, sent := [walkingRequest "Pike St" "Pine St"] }
      (90 * Second) "0.7 mi" none rfl rfl).1 rfl (by decide)⟩

/-! ## Lemmas: printRoutes -/

theorem routeStatus_sub (dep now : Time) :
    routeStatus (dep.Sub now) =
      if dep.nanos < now.nanos then none
      else some (departureLabel (dep.nanos - now.nanos)) := by
  have hM5 : 5 * (Minute : Int) = 300000000000 := by decide
  have hM15 : 15 * (Minute : Int) = 900000000000 := by decide
  unfold routeStatus departureLabel Time.Sub
  simp only [hM5, hM15]
  by_cases hlo : dep.nanos - now.nanos < -9223372036854775808
  · have hlt : dep.nanos < now.nanos := by omega
    simp [hlo, hlt]
  · by_cases hhi : 9223372036854775807 < dep.nanos - now.nanos
    · have hlt : ¬ dep.nanos < now.nanos := by omega
      have h5 : ¬ dep.nanos - now.nanos < 300000000000 := by omega
      have h15 : ¬ dep.nanos - now.nanos < 900000000000 := by omega
      simp [hlo, hhi, hlt, h5, h15]
    · by_cases hlt : dep.nanos < now.nanos
      · have hneg : dep.nanos - now.nanos < 0 := by omega
        simp [hlo, hhi, hlt, hneg]
      · have hneg : ¬ dep.nanos - now.nanos < 0 := by omega
        by_cases h5 : dep.nanos - now.nanos < 300000000000
        · simp [hlo, hhi, hlt, hneg, h5]
        · by_cases h15 : dep.nanos - now.nanos < 900000000000
          · simp [hlo, hhi, hlt, hneg, h5, h15]
          · simp [hlo, hhi, hlt, hneg, h5, h15]

theorem printRoutesLoop_eq (now : Time) (i : Nat) (routes : List Route) :
    printRoutesLoop now i routes = (routes.enumFrom i).flatMap (presentedLines now) := by
  induction routes generalizing i with
  | nil => simp [printRoutesLoop]
  | cons r rest ih =>
    rw [printRoutesLoop, routeStatus_sub, ih]
    by_cases h : r.DepartureTime.nanos < now.nanos
    · simp [List.enumFrom_cons, List.flatMap_cons, presentedLines, h]
    · simp [List.enumFrom_cons, List.flatMap_cons, presentedLines, h]

theorem take_min_five (routes : List Route) :
    routes.take (min 5 routes.length) = routes.take 5 := by
  unfold min
  by_cases h : 5 < routes.length
  · rw [if_pos h]
  · rw [if_neg h, List.take_of_length_le (le_refl _), List.take_of_length_le (by omega)]

theorem departureLabel_cases (t : Int) :
    (departureLabel t = " 🏃‍♂️ LEAVING SOON" ↔ t < 5 * Minute) ∧
      (departureLabel t = " ⚡ GOOD TIMING" ↔ 5 * Minute ≤ t ∧ t < 15 * Minute) ∧
      (departureLabel t = "" ↔ 15 * Minute ≤ t) := by
  have hM5 : 5 * (Minute : Int) = 300000000000 := by decide
  have hM15 : 15 * (Minute : Int) = 900000000000 := by decide
  have h1 : " 🏃‍♂️ LEAVING SOON" ≠ " ⚡ GOOD TIMING" := by decide
  have h2 : " 🏃‍♂️ LEAVING SOON" ≠ "" := by decide
  have h3 : " ⚡ GOOD TIMING" ≠ "" := by decide
  unfold departureLabel
  rw [hM5, hM15]
  by_cases ha : t < 300000000000
  · rw [if_pos ha]
    refine ⟨⟨fun _ => ha, fun _ => rfl⟩, ⟨fun h => absurd h h1, fun h => ?_⟩,
      ⟨fun h => absurd h h2, fun h => ?_⟩⟩
    · have h5 : (300000000000 : Int) ≤ t := h.1
      omega
    · have h15 : (900000000000 : Int) ≤ t := h
      omega
  · rw [if_neg ha]
    by_cases hb : t < 900000000000
    · rw [if_pos hb]
      have h5 : (300000000000 : Int) ≤ t := by omega
      refine ⟨⟨fun h => absurd h.symm h1, fun h => absurd h ha⟩,
        ⟨fun _ => ⟨h5, hb⟩, fun _ => rfl⟩, ⟨fun h => absurd h h3, fun h => ?_⟩⟩
      have h15 : (900000000000 : Int) ≤ t := h
      omega
    · rw [if_neg hb]
      have h15 : (900000000000 : Int) ≤ t := by omega
      exact ⟨⟨fun h => absurd h.symm h2, fun h => absurd h ha⟩,
        ⟨fun h => absurd h.symm h3, fun h => absurd h.2 hb⟩, ⟨fun _ => h15, fun _ => rfl⟩⟩

/-! ## C13 -/

/-- C13: for a non-empty list of itineraries returned by the aggregator, the
driver prints, after its heading, the lines of the itineraries among the first
5 of the list, in order, leaving out each one that departs before the
presentation time `now` (the clock reading taken by `printRoutes`), and each
presented itinerary carries the annotation of `t = departureTime - now`:
"leaving soon" exactly when `t` is below 5 minutes, "good timing" exactly when
`t` is at least 5 and below 15 minutes, and none exactly when `t` is at least 15
minutes. -/
theorem presentRoutes_first_five (env : Env) (destination destinationType : String)
    (routes : List Route) (w : World) (hne : routes ≠ []) :
    presentRoutes env destination destinationType (.ok routes, w) =
        { out := ["✅\n",
                  "\n🏠 Routes to " ++ destination ++ " (" ++ destinationType ++ ")\n",
                  "=" ++ String.mk (List.replicate (destination.utf8ByteSize + 12) '=') ++ "\n"] ++
                (routes.take 5).enum.flatMap (presentedLines (env.clock w.ticks)) ++
                ["\n📱 Tip: Add this tool to your PATH for quick access anywhere!\n"]
          exitCode := none
          world := { ticks := w.ticks + 1, sent := w.sent } } ∧
      ∀ t : Int, 0 ≤ t →
        (departureLabel t = " 🏃‍♂️ LEAVING SOON" ↔ t < 5 * Minute) ∧
        (departureLabel t = " ⚡ GOOD TIMING" ↔ 5 * Minute ≤ t ∧ t < 15 * Minute) ∧
        (departureLabel t = "" ↔ 15 * Minute ≤ t) := by
  constructor
  · have hlen : ¬ (routes.length == 0) = true := by simpa using hne
    simp only [presentRoutes, hlen, printRoutes, timeNow, take_min_five, printRoutesLoop_eq,
      List.enum]
    simp
  · intro t _
    exact departureLabel_cases t

set_option maxRecDepth 100000 in
/-- Witness of C13: a single itinerary departing in 3 minutes is presented
with the "leaving soon" annotation. -/
theorem presentRoutes_first_five_witness :
    [sampleRoute "Route 40" 3] ≠ [] ∧
      (presentRoutes fourEnv "Pine St" "home" (.ok [sampleRoute "Route 40" 3], world0)).out =
        ["✅\n", "\n🏠 Routes to Pine St (home)\n", "====================\n",
         "\n1. Depart: 2:16 PM (3m) 🏃‍♂️ LEAVING SOON\n",
         "   Arrive: 2:26 PM (Travel: 10m)\n",
         "   Distance: 1.2 mi\n",
         "\n📱 Tip: Add this tool to your PATH for quick access anywhere!\n"] :=
  ⟨by simp,
    (congrArg RunResult.out
      (presentRoutes_first_five fourEnv "Pine St" "home" [sampleRoute "Route 40" 3] world0
        (by simp)).1).trans (by decide)⟩

end SeattleCommute
